import Mathlib

/-!
Verification development for the scenario re-contextualization pipeline
(`src/graph/nodes.py`, `src/graph/workflow.py`, `src/api/routes.py`,
`src/utils/config.py`).  JSON documents are embedded as an inductive type,
Python dicts as insertion-ordered association lists, and every pipeline
node as a pure state-transforming function that mirrors the source,
including its try/except control flow (an exception inside a node is
modelled by branching to the node's `except` handler).

The repository references `src/utils/helpers.py` and
`src/utils/openai_client.py`, which are not part of the source tree; the
functions taken from them (`compute_sha256`, `search_keywords`,
`generate_json_diff`) are modelled from the specification (spec
sections 4.1 and 4.2) and are marked as such in their doc comments.  The
generation service itself is modelled as an oracle parameter, following
spec section 4.7 (it returns a complete JSON object or fails).
-/

namespace Cartedo

/-- JSON values.  Numbers are embedded as integers, which is sufficient for
every value the claims inspect (hash comparisons, string searches and
structural equality never depend on non-integer numerics).  Objects are
insertion-ordered association lists, matching Python dict semantics. -/
inductive Json where
  | null : Json
  | bool : Bool → Json
  | num : Int → Json
  | str : String → Json
  | arr : List Json → Json
  | obj : List (String × Json) → Json
deriving Repr, Inhabited

mutual

/-- Structural equality of JSON values (Python `==` on parsed JSON). -/
def beqJson : Json → Json → Bool
  | Json.null, Json.null => true
  | Json.bool a, Json.bool b => a == b
  | Json.num a, Json.num b => a == b
  | Json.str a, Json.str b => a == b
  | Json.arr a, Json.arr b => beqJsonList a b
  | Json.obj a, Json.obj b => beqJsonFields a b
  | _, _ => false

/-- Structural equality of JSON arrays, elementwise. -/
def beqJsonList : List Json → List Json → Bool
  | [], [] => true
  | a :: as2, b :: bs2 => beqJson a b && beqJsonList as2 bs2
  | _, _ => false

/-- Structural equality of JSON objects, in binding order. -/
def beqJsonFields : List (String × Json) → List (String × Json) → Bool
  | [], [] => true
  | (k1, v1) :: r1, (k2, v2) :: r2 =>
      k1 == k2 && beqJson v1 v2 && beqJsonFields r1 r2
  | _, _ => false

end

/-- First binding for key `k` in a Python-dict association list
(`d[k]` / `d.get(k)`). -/
def getKey? (fs : List (String × Json)) (k : String) : Option Json :=
  match fs with
  | [] => none
  | (k2, v) :: rest => if k2 = k then some v else getKey? rest k

/-- Python `k in d`. -/
def hasKey (fs : List (String × Json)) (k : String) : Bool :=
  (getKey? fs k).isSome

/-- Python `d[k] = v`: replace the value in place if the key is present,
otherwise append the new binding at the end (dict insertion order). -/
def setKey (fs : List (String × Json)) (k : String) (v : Json) :
    List (String × Json) :=
  match fs with
  | [] => [(k, v)]
  | (k2, w) :: rest =>
      if k2 = k then (k2, v) :: rest else (k2, w) :: setKey rest k v

/-- Root-level keys of an object (empty for non-objects). -/
def rootKeys : Json → List String
  | Json.obj fs => fs.map Prod.fst
  | _ => []

/-- Python truthiness of a JSON value (`if not x`):
`None`, `False`, `0`, `""`, `[]` and `{}` are falsy. -/
def jsonTruthy : Json → Bool
  | Json.null => false
  | Json.bool b => b
  | Json.num n => n != 0
  | Json.str s => s != ""
  | Json.arr xs => !xs.isEmpty
  | Json.obj fs => !fs.isEmpty

/-- `input_json.get("topicWizardData", {})` viewed as an association list.
A present non-object container value does not occur for documents that
pass ingestion (the theorems' validity hypotheses), so it is flattened to
the empty field list here. -/
def containerFields (j : Json) : List (String × Json) :=
  match j with
  | Json.obj fs =>
      match getKey? fs "topicWizardData" with
      | some (Json.obj inner) => inner
      | _ => []
  | _ => []

/-! ### Character and string utilities (Python `str` semantics) -/

/-- The apostrophe character, written via its code point. -/
def apos : Char := Char.ofNat 39

/-- Python whitespace as used by `str.strip` and `\s` (ASCII range). -/
def isSpaceChar (c : Char) : Bool :=
  c == ' ' || c == '\t' || c == '\n' || c == '\r' ||
  c == Char.ofNat 11 || c == Char.ofNat 12

/-- Python `str.strip()`. -/
def pyStrip (s : String) : String :=
  let chars := (s.toList.dropWhile isSpaceChar).reverse.dropWhile isSpaceChar
  String.mk chars.reverse

/-- Python `str.lower()` (ASCII case folding, which covers the documents
and literals this pipeline manipulates). -/
def pyLower (s : String) : String :=
  String.mk (s.toList.map Char.toLower)

/-- Python substring test `needle in hay` on character lists. -/
def listContainsSub (hay needle : List Char) : Bool :=
  (List.range (hay.length + 1)).any fun i => needle.isPrefixOf (hay.drop i)

/-- Python substring test `needle in hay`. -/
def pyContains (hay needle : String) : Bool :=
  listContainsSub hay.toList needle.toList

/-- Case-insensitive substring test: `needle.lower() in hay.lower()`. -/
def containsCi (hay needle : String) : Bool :=
  pyContains (pyLower hay) (pyLower needle)

/-- Case-insensitive equality: `a.lower() == b.lower()`. -/
def eqCi (a b : String) : Bool := pyLower a == pyLower b

/-! ### Configuration (`src/utils/config.py`) -/

/-- `Config.LOCKED_FIELDS` (config.py lines 28-34). -/
def LOCKED_FIELDS : List String :=
  ["scenarioOptions",
   "assessmentCriterion",
   "selectedAssessmentCriterion",
   "industryAlignedActivities",
   "selectedIndustryAlignedActivities"]

/-- `Config.MAX_RETRIES` (config.py line 24). -/
def MAX_RETRIES : Nat := 2

/-! Scores.  The source computes `consistency_score` with float
arithmetic on small ratios; it is embedded as an exact fraction (an
integer numerator over a positive integer denominator, compared by
cross-multiplication), which carries the same values and order for every
expression the pipeline forms. -/

/-- An exact fraction; the embedding of the float scores. -/
structure Frac where
  num : Int
  den : Int
deriving Repr, DecidableEq, Inhabited

/-- `a < b` on fractions with positive denominators. -/
def fracLt (a b : Frac) : Bool := a.num * b.den < b.num * a.den

/-- `a ≤ b` on fractions with positive denominators. -/
def fracLe (a b : Frac) : Bool := a.num * b.den ≤ b.num * a.den

/-- The rational value of a fraction. -/
def Frac.toRat (f : Frac) : Rat := (f.num : Rat) / (f.den : Rat)

/-- `0.0`. -/
def fracZero : Frac := ⟨0, 1⟩

/-- `1.0`. -/
def fracOne : Frac := ⟨1, 1⟩

/-- `a - b` on fractions. -/
def fracSub (a b : Frac) : Frac :=
  ⟨a.num * b.den - b.num * a.den, a.den * b.den⟩

/-- `max(0.0, f)`. -/
def fracMax0 (f : Frac) : Frac := if f.num < 0 then ⟨0, f.den⟩ else f

/-- `Config.CONSISTENCY_THRESHOLD` (config.py line 25). -/
def CONSISTENCY_THRESHOLD : Frac := ⟨85, 100⟩

/-! ### Canonical hashing (`compute_sha256`)

Modelled from the spec: `src/utils/helpers.py` is not in the source tree.
Spec section 4.1 requires a digest of a canonical serialization (sorted
keys, stable formatting, no extraneous whitespace) under a fixed
cryptographic hash.  The digest is modelled as the canonical serialization
itself, which has the same equality behaviour on structurally-equal
values; no claim depends on digest injectivity beyond that. -/

/-- Insert a binding into a key-sorted field list (sorted-keys order). -/
def insertSorted (p : String × Json) :
    List (String × Json) → List (String × Json)
  | [] => [p]
  | q :: rest =>
      if p.1 < q.1 then p :: q :: rest else q :: insertSorted p rest

/-- Sort object fields by key for canonical serialization. -/
def sortFields (fs : List (String × Json)) : List (String × Json) :=
  fs.foldr insertSorted []

/-- Escape a string for canonical serialization. -/
def escapeStr (s : String) : String :=
  String.join (s.toList.map fun c =>
    if c = '"' || c = '\\' then String.mk ['\\', c] else String.mk [c])

mutual

/-- Key-order canonicalization: sort every object's bindings by key. -/
def canonJson : Json → Json
  | Json.null => Json.null
  | Json.bool b => Json.bool b
  | Json.num n => Json.num n
  | Json.str s => Json.str s
  | Json.arr xs => Json.arr (canonList xs)
  | Json.obj fs => Json.obj (sortFields (canonFields fs))

/-- Canonicalize array elements. -/
def canonList : List Json → List Json
  | [] => []
  | x :: rest => canonJson x :: canonList rest

/-- Canonicalize the values of object fields. -/
def canonFields : List (String × Json) → List (String × Json)
  | [] => []
  | (k, v) :: rest => (k, canonJson v) :: canonFields rest

end

mutual

/-- Serialization of a JSON value (no extraneous whitespace). -/
def serializeJson : Json → String
  | Json.null => "null"
  | Json.bool b => if b then "true" else "false"
  | Json.num n => toString n
  | Json.str s => "\"" ++ escapeStr s ++ "\""
  | Json.arr xs => "[" ++ serializeList xs ++ "]"
  | Json.obj fs => "\x7b" ++ serializeFields fs ++ "\x7d"

/-- Serialize array elements, comma-separated. -/
def serializeList : List Json → String
  | [] => ""
  | [x] => serializeJson x
  | x :: rest => serializeJson x ++ "," ++ serializeList rest

/-- Serialize object fields, comma-separated. -/
def serializeFields : List (String × Json) → String
  | [] => ""
  | [(k, v)] => "\"" ++ escapeStr k ++ "\":" ++ serializeJson v
  | (k, v) :: rest =>
      "\"" ++ escapeStr k ++ "\":" ++ serializeJson v ++ "," ++
        serializeFields rest

end

/-- Modelled from the spec: canonical content hash of a JSON value
(spec section 4.1); `compute_sha256` lives in the missing
`src/utils/helpers.py`. -/
def compute_sha256 (v : Json) : String :=
  "sha256:" ++ serializeJson (canonJson v)

/-! ### Keyword search and structural diff

Modelled from the spec: `search_keywords` and `generate_json_diff` live in
the missing `src/utils/helpers.py`.  Spec section 4.2: the keyword search
recursively walks the document, tests every string leaf for
case-insensitive containment of each keyword, and skips any subtree
rooted at an excluded (locked) field; the differ reports the paths where
the two trees differ, in `a.b[2].c` addressing. -/

mutual

/-- Keyword findings in a single JSON value at `path`. -/
def searchWalk (keywords : List String) (excludePaths : List String)
    (path : String) : Json → List (String × String)
  | Json.str s => keywords.filterMap fun kw =>
      if containsCi s kw then some (path, kw) else none
  | Json.arr xs => searchWalkArr keywords excludePaths path 0 xs
  | Json.obj fs => searchWalkObj keywords excludePaths path fs
  | _ => []

/-- Keyword findings in array elements. -/
def searchWalkArr (keywords : List String) (excludePaths : List String)
    (path : String) (i : Nat) : List Json → List (String × String)
  | [] => []
  | x :: rest =>
      searchWalk keywords excludePaths
          (path ++ "[" ++ toString i ++ "]") x ++
        searchWalkArr keywords excludePaths path (i + 1) rest

/-- Keyword findings in object fields, skipping excluded subtrees. -/
def searchWalkObj (keywords : List String) (excludePaths : List String)
    (path : String) : List (String × Json) → List (String × String)
  | [] => []
  | (k, v) :: rest =>
      (if excludePaths.contains k then []
       else
         searchWalk keywords excludePaths
           (if path = "" then k else path ++ "." ++ k) v) ++
        searchWalkObj keywords excludePaths path rest

end

/-- Modelled from the spec: `findKeywords`/`search_keywords` of the
missing `src/utils/helpers.py` (spec section 4.2). -/
def search_keywords (doc : Json) (keywords : List String)
    (excludePaths : List String) : List (String × String) :=
  searchWalk keywords excludePaths "" doc

/-- Child path for an object key. -/
def keyPath (path k : String) : String :=
  if path = "" then k else path ++ "." ++ k

/-- Child path for an array index. -/
def idxPath (path : String) (i : Nat) : String :=
  path ++ "[" ++ toString i ++ "]"

mutual

/-- Paths at which two JSON values differ. -/
def diffWalk (path : String) : Json → Json → List String
  | Json.obj fa, Json.obj fb =>
      diffWalkObj path fb fa ++
        (fb.filterMap fun p =>
          if hasKey fa p.1 then none else some (keyPath path p.1))
  | Json.arr xa, Json.arr xb => diffWalkArr path 0 xa xb
  | a, b => if beqJson a b then [] else [path]
termination_by a _ => sizeOf a

/-- Differences between array elements (a length change is reported at
the indices present in only one side). -/
def diffWalkArr (path : String) (i : Nat) :
    List Json → List Json → List String
  | [], bs => (List.range bs.length).map fun j => idxPath path (i + j)
  | _ :: as2, [] => idxPath path i :: diffWalkArr path (i + 1) as2 []
  | a :: as2, b :: bs =>
      diffWalk (idxPath path i) a b ++ diffWalkArr path (i + 1) as2 bs
termination_by as2 _ => sizeOf as2

/-- Differences at the left object's keys against the right object. -/
def diffWalkObj (path : String) (fb : List (String × Json)) :
    List (String × Json) → List String
  | [] => []
  | (k, v) :: rest =>
      (match getKey? fb k with
       | some w => diffWalk (keyPath path k) v w
       | none => [keyPath path k]) ++
        diffWalkObj path fb rest
termination_by fa => sizeOf fa

end

/-- Modelled from the spec: `generate_json_diff` of the missing
`src/utils/helpers.py` (spec section 4.2). -/
def generate_json_diff (original transformed : Json) : List String :=
  diffWalk "" original transformed

/-! ### Entity extraction (`extract_entities_from_scenario`, nodes.py
lines 224-256)

The two regular expressions are embedded by their matching semantics.
For `([A-Z][a-zA-Z]+(?:'s)?)\s+(?:is|faces|sees|'s)`: `re.search` scans
start positions left to right; at a position, `[a-zA-Z]+` is effectively
forced to its maximal run (a shorter run leaves a letter next, which
matches neither the possessive group nor `\s+`), the possessive group is
tried greedily, and `\s+` must consume the whole whitespace run because
every trigger alternative starts with a non-whitespace character. -/

/-- `[A-Z]`. -/
def isUpperChar (c : Char) : Bool := 'A' ≤ c && c ≤ 'Z'

/-- `[a-zA-Z]`. -/
def isAlphaChar (c : Char) : Bool :=
  isUpperChar c || ('a' ≤ c && c ≤ 'z')

/-- Does one of the trigger alternatives `is|faces|sees|'s` match as a
prefix here? -/
def triggerAt (cs : List Char) : Bool :=
  List.isPrefixOf ['i', 's'] cs ||
  List.isPrefixOf ['f', 'a', 'c', 'e', 's'] cs ||
  List.isPrefixOf ['s', 'e', 'e', 's'] cs ||
  List.isPrefixOf [apos, 's'] cs

/-- `\s+` followed by a trigger alternative. -/
def spacesThenTrigger (cs : List Char) : Bool :=
  let sp := cs.takeWhile isSpaceChar
  !sp.isEmpty && triggerAt (cs.drop sp.length)

/-- Match `([A-Z][a-zA-Z]+(?:'s)?)\s+(?:is|faces|sees|'s)` anchored at
this position; returns the captured group. -/
def brandMatchAt (cs : List Char) : Option (List Char) :=
  match cs with
  | [] => none
  | c :: rest =>
      if isUpperChar c then
        let run := rest.takeWhile isAlphaChar
        if run.isEmpty then none
        else
          let tok := c :: run
          let rem := rest.drop run.length
          match rem with
          | a :: b :: rem2 =>
              if a == apos && b == 's' && spacesThenTrigger rem2 then
                some (tok ++ [apos, 's'])
              else if spacesThenTrigger rem then some tok else none
          | _ => if spacesThenTrigger rem then some tok else none
      else none

/-- `re.search` for the brand pattern: first start position that
matches. -/
def brandSearch : List Char → Option (List Char)
  | [] => none
  | c :: rest =>
      match brandMatchAt (c :: rest) with
      | some cap => some cap
      | none => brandSearch rest

/-- Match `[A-Z][a-zA-Z]+(?:'s)?` anchored here (competitor capture):
maximal letter run, greedy possessive. -/
def capTokenAt (cs : List Char) : Option (List Char) :=
  match cs with
  | [] => none
  | c :: rest =>
      if isUpperChar c then
        let run := rest.takeWhile isAlphaChar
        if run.isEmpty then none
        else
          let tok := c :: run
          match rest.drop run.length with
          | a :: b :: _ =>
              if a == apos && b == 's' then some (tok ++ [apos, 's'])
              else some tok
          | _ => some tok
      else none

/-- Match `(?:after|when)\s+([A-Z][a-zA-Z]+(?:'s)?)` anchored at this
position; returns the captured group. -/
def compMatchAt (cs : List Char) : Option (List Char) :=
  let afterWord := ['a', 'f', 't', 'e', 'r']
  let whenWord := ['w', 'h', 'e', 'n']
  let tryWord (w : List Char) : Option (List Char) :=
    if w.isPrefixOf cs then
      let rem := (cs.drop w.length)
      let sp := rem.takeWhile isSpaceChar
      if sp.isEmpty then none else capTokenAt (rem.drop sp.length)
    else none
  match tryWord afterWord with
  | some cap => some cap
  | none => tryWord whenWord

/-- `re.search` for the competitor pattern. -/
def compSearch : List Char → Option (List Char)
  | [] => none
  | c :: rest =>
      match compMatchAt (c :: rest) with
      | some cap => some cap
      | none => compSearch rest

/-- Python `str.replace` of every occurrence of the possessive marker
with the empty string, scanning left to right. -/
def replacePossAll : List Char → List Char
  | [] => []
  | [a] => [a]
  | a :: b :: rest =>
      if a == apos && b == 's' then replacePossAll rest
      else a :: replacePossAll (b :: rest)

/-- Extraction record (the optional keys of the Python `entities` dict). -/
structure Entities where
  brand : Option String
  competitor : Option String
  challenge : Option String
  industry : Option String
deriving Repr, DecidableEq

/-- `extract_entities_from_scenario` (nodes.py lines 224-256). -/
def extract_entities_from_scenario (text : String) : Entities :=
  { brand := (brandSearch text.toList).map fun cap =>
      String.mk (replacePossAll cap),
    competitor := (compSearch text.toList).map fun cap =>
      String.mk (replacePossAll cap),
    challenge :=
      if pyContains text "$1 menu" || pyContains text "$1 value menu" then
        some "$1 value menu"
      else if pyContains text "Buy One Get One Free" ||
          pyContains text "BOGO" then
        some "BOGO promotion"
      else if pyContains (pyLower text) "discount" then
        some "discount promotion"
      else none,
    industry :=
      if pyContains (pyLower text) "restaurant" ||
          pyContains (pyLower text) "fast-casual" ||
          pyContains (pyLower text) "food" then
        some "fast-casual restaurant"
      else if pyContains (pyLower text) "fashion" ||
          pyContains (pyLower text) "retail" then
        some "fashion retail"
      else if pyContains (pyLower text) "airline" then some "airline"
      else if pyContains (pyLower text) "hotel" then some "hospitality"
      else none }

/-- First binding for `k` in a string-valued Python dict. -/
def getS? (fs : List (String × String)) (k : String) : Option String :=
  match fs with
  | [] => none
  | (k2, v) :: rest => if k2 = k then some v else getS? rest k

/-- Python `d[k] = v` on a string-valued dict. -/
def setS (fs : List (String × String)) (k v : String) :
    List (String × String) :=
  match fs with
  | [] => [(k, v)]
  | (k2, w) :: rest =>
      if k2 = k then (k2, v) :: rest else (k2, w) :: setS rest k v

/-- `build_entity_mapping` (nodes.py lines 259-275): for each of the four
fields present in both records, bind old value to new value in a dict. -/
def build_entity_mapping (cur tgt : Entities) : List (String × String) :=
  let m : List (String × String) := []
  let m := match cur.brand, tgt.brand with
    | some a, some b => setS m a b
    | _, _ => m
  let m := match cur.competitor, tgt.competitor with
    | some a, some b => setS m a b
    | _, _ => m
  let m := match cur.challenge, tgt.challenge with
    | some a, some b => setS m a b
    | _, _ => m
  match cur.industry, tgt.industry with
  | some a, some b => setS m a b
  | _, _ => m

/-! ### Scenario resolution (ingestor_node, nodes.py lines 57-75) -/

/-- The string-scenario search loop of `ingestor_node`: a single pass in
list order, each option tested with
`option.lower() == selected.lower() or selected.lower() in
option.lower()`; the first hit wins. -/
def resolveScenarioFrom (options : List String) (sel : String) (i : Nat) :
    Option (Nat × String) :=
  match options with
  | [] => none
  | o :: rest =>
      if eqCi o sel || containsCi o sel then some (i, o)
      else resolveScenarioFrom rest sel (i + 1)

/-- Resolution of a string `selected_scenario` against the options. -/
def resolveScenario (options : List String) (sel : String) :
    Option (Nat × String) :=
  resolveScenarioFrom options sel 0

/-- The claim C7 reading of resolution, built from the spec words: a full
exact case-insensitive pass over all options first, and only if that
finds nothing, a substring pass. -/
def specResolveScenario (options : List String) (sel : String) :
    Option (Nat × String) :=
  match options.findIdx? fun o => eqCi o sel with
  | some i => some (i, options.getD i "")
  | none =>
      match options.findIdx? fun o => containsCi o sel with
      | some i => some (i, options.getD i "")
      | none => none

/-- Whitespace tokenization (empty pieces dropped), accumulating the
current token reversed. -/
def splitTokensAux (cur : List Char) : List Char → List (List Char)
  | [] => if cur.isEmpty then [] else [cur.reverse]
  | c :: rest =>
      if isSpaceChar c then
        if cur.isEmpty then splitTokensAux [] rest
        else cur.reverse :: splitTokensAux [] rest
      else splitTokensAux (c :: cur) rest

/-- The whitespace-separated tokens of a text. -/
def tokensOf (text : String) : List String :=
  (splitTokensAux [] text.toList).map String.mk

/-- Does a token start with a capital letter? -/
def isCapToken (t : String) : Bool :=
  match t.toList with
  | c :: _ => isUpperChar c
  | [] => false

/-- Strip one trailing possessive marker. -/
def stripTrailPoss (s : String) : String :=
  match s.toList.reverse with
  | c1 :: c2 :: rest =>
      if c1 == 's' && c2 == apos then String.mk rest.reverse else s
  | _ => s

/-- Join tokens with single spaces. -/
def joinSpace : List String → String
  | [] => ""
  | [t] => t
  | t :: rest => t ++ " " ++ joinSpace rest

/-- The claim C8 reading of brand extraction, built from the spec words
(spec section 4.3): the maximal capitalized token *sequence* immediately
preceding the first trigger token, with a trailing possessive marker
stripped. -/
def specBrandSequence (text : String) : Option String :=
  let toks := tokensOf text
  match toks.findIdx? fun t =>
      t == "is" || t == "faces" || t == "sees" || t == String.mk [apos, 's']
    with
  | none => none
  | some ti =>
      let runRev := (toks.take ti).reverse.takeWhile isCapToken
      if runRev.isEmpty then none
      else some (stripTrailPoss (joinSpace runRev.reverse))

/-! ### Workflow state (`src/graph/state.py`)

`WorkflowState` is a `TypedDict` with `total=False`: a key may be absent,
modelled with `Option` (`none` = key absent; `state["k"]` on `none`
raises `KeyError`, which branches to the surrounding node's `except`
handler; `state.get("k", d)` is `Option.getD`).  The audit-trail
`node_logs`, the metadata `candidate_paths`/`style_profile`/
`openai_stats` and the duration bookkeeping (`runtime_ms`) are write-only
for every behaviour the claims mention and are not modelled; `node_logs`
is set by every `ingestor_node` branch before any other node reads it, so
eliding it removes no `KeyError` path. -/

/-- A `validation_errors` entry: either a per-node error record
`{"node": ..., "error": ...}` or a locked-field record
`{"field": ..., "error": ..., "expected_hash": ..., "actual_hash": ...}`. -/
inductive VError where
  | nodeErr (node msg : String)
  | fieldErr (field msg expected actual : String)
deriving Repr, DecidableEq

/-- The workflow state threaded through the nodes. -/
structure WState where
  input_json : Json
  selected_scenario : Int ⊕ String
  locked_field_hashes : Option (List (String × String)) := none
  scenario_options : Option (List String) := none
  selected_scenario_text : Option String := none
  current_scenario_text : Option String := none
  entity_map : Option (List (String × String)) := none
  transformed_json : Option Json := none
  consistency_score : Option Frac := none
  changed_paths : Option (List String) := none
  validation_errors : Option (List VError) := none
  retry_count : Option Nat := none
  final_status : Option String := none

/-- The initial state built by the caller of the pipeline
(routes.py lines 42-49). -/
def mkInitialState (input : Json) (sel : Int ⊕ String) : WState :=
  { input_json := input,
    selected_scenario := sel,
    validation_errors := some [],
    retry_count := some 0,
    final_status := some "PENDING" }

/-! ### Ingestor (`ingestor_node`, nodes.py lines 19-120) -/

/-- The `except` handler of `ingestor_node` (lines 109-120): status FAIL
and `validation_errors` replaced by the single structural entry. -/
def ingestFail (s : WState) (msg : String) : WState :=
  { s with
    final_status := some "FAIL",
    validation_errors := some [VError.nodeErr "IngestorNode" msg] }

/-- `data.get("scenarioOptions", [])` read as a list of strings.
Ingestible documents carry a JSON array of strings here; a missing key
yields the default `[]` exactly as in the source. -/
def optionsOf (data : List (String × Json)) : List String :=
  match getKey? data "scenarioOptions" with
  | some (Json.arr xs) => xs.map fun x =>
      match x with
      | Json.str s => s
      | _ => ""
  | _ => []

/-- `data.get("selectedScenarioOption", "")` read as a string (the field
is a string in every ingestible document; a missing key yields `""`
exactly as in the source). -/
def currentScenarioOf (data : List (String × Json)) : String :=
  match getKey? data "selectedScenarioOption" with
  | some (Json.str s) => s
  | _ => ""

/-- `ingestor_node`: require the container key, require and hash every
locked field, require non-empty scenario options, resolve
`selected_scenario`, record the current scenario text, reset
`retry_count`/`final_status`/`validation_errors`.  The first violation
raises, landing in `ingestFail`.  (`input_json` is a dict at this
boundary — the request schema types it so.) -/
def ingestor_node (s : WState) : WState :=
  match s.input_json with
  | Json.obj rootFs =>
      match getKey? rootFs "topicWizardData" with
      | none => ingestFail s "Invalid JSON: missing topicWizardData key"
      | some container =>
          let data := match container with
            | Json.obj fs => fs
            | _ => []
          match LOCKED_FIELDS.find? fun f => !hasKey data f with
          | some f =>
              ingestFail s ("Locked field " ++ f ++ " not found in input JSON")
          | none =>
              let lfh := LOCKED_FIELDS.map fun f =>
                (f, compute_sha256 ((getKey? data f).getD Json.null))
              let opts := optionsOf data
              if opts.isEmpty then
                ingestFail s "No scenarioOptions found in input JSON"
              else
                let resolved : Option (Nat × String) :=
                  match s.selected_scenario with
                  | Sum.inl idx =>
                      if idx < 0 ∨ (opts.length : Int) ≤ idx then none
                      else some (idx.toNat, opts.getD idx.toNat "")
                  | Sum.inr txt => resolveScenario opts txt
                match resolved with
                | none => ingestFail s "Scenario not found or invalid index"
                | some (_, txt) =>
                    { s with
                      locked_field_hashes := some lfh,
                      scenario_options := some opts,
                      selected_scenario_text := some txt,
                      current_scenario_text := some (currentScenarioOf data),
                      retry_count := some 0,
                      final_status := some "PENDING",
                      validation_errors := some [] }
  | _ => ingestFail s "Invalid JSON: missing topicWizardData key"

/-! ### Analyzer (`analyzer_node`, nodes.py lines 123-221) -/

/-- The `except` handler of `analyzer_node` (lines 208-221): append the
error, default `entity_map` to empty, continue with the pipeline. -/
def analyzerFail (s : WState) (msg : String) : WState :=
  { s with
    validation_errors :=
      some (s.validation_errors.getD [] ++ [VError.nodeErr "AnalyzerNode" msg]),
    entity_map := some [] }

/-- `analyzer_node`: raise on an empty current or selected text;
short-circuit when the stripped texts coincide (status OK, output is the
input, empty entity map); otherwise extract entities from both texts and
build the entity map. -/
def analyzer_node (s : WState) : WState :=
  let cur := s.current_scenario_text.getD ""
  let sel := s.selected_scenario_text.getD ""
  if cur = "" then analyzerFail s "current_scenario_text is empty"
  else if sel = "" then analyzerFail s "selected_scenario_text is empty"
  else if pyStrip cur = pyStrip sel then
    { s with
      final_status := some "OK",
      transformed_json := some s.input_json,
      entity_map := some [] }
  else
    let ce := extract_entities_from_scenario cur
    let te := extract_entities_from_scenario sel
    { s with entity_map := some (build_entity_mapping ce te) }

/-! ### Transformer (`transformer_node`, nodes.py lines 278-397, and
`transformer_node_streaming`, lines 400-561)

The post-response processing — unwrap or wrap the container key, force-
restore every locked field from the input, re-wrap — is the identical
code block in both variants (lines 354-372 and 516-533) and is embedded
once as `transformerPost`.  The generation service (the missing
`src/utils/openai_client.py`) is an oracle `gen : Nat → Option (List
(String × Json))`: per spec section 4.7 it returns a complete JSON
object, or fails (`none` models any service exception, timeout or
malformed response, including the streaming variant finishing without a
complete object). -/

/-- The forced-restoration loop (lines 366-369 / 527-530): every
configured locked field present in the input container is written over
the service's container, in `LOCKED_FIELDS` order (`deepcopy` of a value
is the value itself in this pure embedding). -/
def restoreLocked (topic inputData : List (String × Json)) :
    List (String × Json) :=
  LOCKED_FIELDS.foldl
    (fun acc f =>
      match getKey? inputData f with
      | some v => setKey acc f v
      | none => acc)
    topic

/-- Post-response processing shared by both transformer variants.
`none` models the `except` branch: writing a locked field onto a
non-object value under the container key raises in Python. -/
def transformerPost (input : Json) (resp : List (String × Json)) :
    Option Json :=
  let inputData := containerFields input
  match getKey? resp "topicWizardData" with
  | some (Json.obj fs) =>
      some (Json.obj [("topicWizardData", Json.obj (restoreLocked fs inputData))])
  | some v =>
      if LOCKED_FIELDS.all fun f => !hasKey inputData f then
        some (Json.obj [("topicWizardData", v)])
      else none
  | none =>
      some (Json.obj [("topicWizardData", Json.obj (restoreLocked resp inputData))])

/-- The `except` handler of `transformer_node` (lines 388-397): append
the error and return the state otherwise unchanged (any previously
transformed JSON is kept). -/
def transFail (s : WState) (msg : String) : WState :=
  { s with
    validation_errors :=
      some (s.validation_errors.getD [] ++
        [VError.nodeErr "TransformerNode" msg]) }

/-- `transformer_node`, threaded with the running count of generation
calls.  The state reads `state["entity_map"]`,
`state["selected_scenario_text"]`, `state["current_scenario_text"]`
happen in source order before the service call, so a missing key fails
the node without consuming a generation call. -/
def transformer_node (gen : Nat → Option (List (String × Json)))
    (calls : Nat) (s : WState) : WState × Nat :=
  match s.entity_map with
  | none => (transFail s "KeyError: entity_map", calls)
  | some _ =>
      match s.selected_scenario_text with
      | none => (transFail s "KeyError: selected_scenario_text", calls)
      | some _ =>
          match s.current_scenario_text with
          | none => (transFail s "KeyError: current_scenario_text", calls)
          | some _ =>
              match gen calls with
              | none => (transFail s "OpenAI generation failed", calls + 1)
              | some resp =>
                  match transformerPost s.input_json resp with
                  | none =>
                      (transFail s "locked field restoration failed", calls + 1)
                  | some out =>
                      ({ s with transformed_json := some out }, calls + 1)

/-! ### Consistency checker (`consistency_checker_node`, nodes.py
lines 564-624) -/

/-- The `except` handler of `consistency_checker_node`
(lines 615-624): the score is forced to `0.0`. -/
def ccFail (s : WState) : WState :=
  { s with consistency_score := some fracZero }

/-- `consistency_checker_node`: keyword list from the `entity_map` keys,
keyword search over the transformed JSON excluding locked fields, score
`max(0, 1 - failed / max(total, 1))`. -/
def consistency_checker_node (s : WState) : WState :=
  match s.transformed_json with
  | none => ccFail s
  | some tj =>
      if !jsonTruthy tj then ccFail s
      else
        match s.entity_map with
        | none => ccFail s
        | some em =>
            match s.current_scenario_text with
            | none => ccFail s
            | some _ =>
                let oldKeywords := em.map Prod.fst
                let findings := search_keywords tj oldKeywords LOCKED_FIELDS
                let score : Frac := fracMax0 (fracSub fracOne
                  ⟨(findings.length : Int),
                   ((max oldKeywords.length 1 : Nat) : Int)⟩)
                { s with consistency_score := some score }

/-! ### Validator (`validator_node`, nodes.py lines 627-714) -/

/-- The `except` handler of `validator_node` (lines 704-714). -/
def valFail (s : WState) (msg : String) : WState :=
  { s with
    final_status := some "FAIL",
    validation_errors :=
      some (s.validation_errors.getD [] ++
        [VError.nodeErr "ValidatorNode" msg]) }

/-- The locked-field re-check loop of `validator_node` (lines 654-666):
a field present in the transformed container is re-hashed and compared
with the stored hash (`locked_field_hashes[field]` raises on a missing
entry, modelled as `none`); a field absent from the transformed
container is skipped entirely. -/
def checkLocked (tData : List (String × Json))
    (lfh : List (String × String)) :
    List String → Option (List VError)
  | [] => some []
  | f :: rest =>
      if hasKey tData f then
        match getS? lfh f with
        | none => none
        | some expected =>
            let actual := compute_sha256 ((getKey? tData f).getD Json.null)
            match checkLocked tData lfh rest with
            | none => none
            | some tl =>
                some ((if actual ≠ expected then
                  [VError.fieldErr f "Locked field was modified"
                    expected actual]
                 else []) ++ tl)
      else checkLocked tData lfh rest

/-- `validator_node`: re-check locked-field hashes over the transformed
document, compute the structural diff, and set the final status —
`FAIL` on any locked-field mismatch, otherwise `OK` iff the score meets
the threshold.  The `state["locked_field_hashes"]` read (line 642)
precedes the `transformed_json` truthiness check (line 644). -/
def validator_node (s : WState) : WState :=
  match s.locked_field_hashes with
  | none => valFail s "KeyError: locked_field_hashes"
  | some lfh =>
      match s.transformed_json with
      | none => valFail s "No transformed JSON to validate"
      | some tj =>
          if !jsonTruthy tj then valFail s "No transformed JSON to validate"
          else
            let tData := containerFields tj
            match checkLocked tData lfh LOCKED_FIELDS with
            | none => valFail s "KeyError: locked_field_hashes[field]"
            | some errs =>
                let lockedPass := errs.isEmpty
                let changed := generate_json_diff s.input_json tj
                let status :=
                  if !lockedPass then "FAIL"
                  else if fracLe CONSISTENCY_THRESHOLD
                      (s.consistency_score.getD fracZero) = true then "OK"
                  else "FAIL"
                { s with
                  changed_paths := some changed,
                  validation_errors := some errs,
                  final_status := some status }

/-- `finalizer_node` (nodes.py lines 717-753) only aggregates stage
durations into `runtime_ms`; on the modelled fields it is the
identity. -/
def finalizer_node (s : WState) : WState := s

/-! ### Workflow wiring (`src/graph/workflow.py`) -/

/-- `should_transform` (workflow.py lines 15-20). -/
def should_transform (s : WState) : String :=
  if s.final_status = some "OK" then "finalize" else "transform"

/-- `should_retry_transform` (workflow.py lines 23-31): route back to
transform iff the score is below threshold and retries remain,
incrementing `retry_count` as a side effect of taking that edge. -/
def should_retry_transform (s : WState) : String × WState :=
  let score := s.consistency_score.getD fracZero
  let rc := s.retry_count.getD 0
  if fracLt score CONSISTENCY_THRESHOLD = true ∧ rc < MAX_RETRIES then
    ("transform", { s with retry_count := some (rc + 1) })
  else ("validate", s)

/-- `should_abort` (workflow.py lines 34-42): every branch returns
`"finalize"`. -/
def should_abort (s : WState) : String :=
  if s.final_status = some "FAIL" then "finalize" else "finalize"

/-- The transform ↔ check_consistency loop of the compiled graph
(workflow.py lines 89-100), with fuel; `runPipeline` supplies enough
fuel that the zero case is unreachable (each taken retry edge increments
`retry_count`, which the guard bounds by `MAX_RETRIES`). -/
def transformLoop (gen : Nat → Option (List (String × Json))) :
    Nat → Nat → WState → WState × Nat
  | 0, calls, s => (s, calls)
  | fuel + 1, calls, s =>
      let (s1, c1) := transformer_node gen calls s
      let s2 := consistency_checker_node s1
      let (route, s3) := should_retry_transform s2
      if route = "transform" then transformLoop gen fuel c1 s3
      else (s3, c1)

/-- The compiled workflow (`create_workflow`, workflow.py lines 45-114):
ingest → analyze → (finalize | transform-loop → validate → finalize),
returning the final state and the number of generation calls made. -/
def runPipeline (gen : Nat → Option (List (String × Json)))
    (input : Json) (sel : Int ⊕ String) : WState × Nat :=
  let s1 := ingestor_node (mkInitialState input sel)
  let s2 := analyzer_node s1
  if should_transform s2 = "finalize" then (finalizer_node s2, 0)
  else
    let r := transformLoop gen (MAX_RETRIES + 1) 0 s2
    (finalizer_node (validator_node r.1), r.2)

/-! ### Standalone validation (`/validate`, routes.py lines 209-266) -/

/-- The fields of the `/validate` response the claims mention. -/
structure ValReport where
  locked_fields_compliance : Bool
  locked_field_hashes : List (String × String)
  changed_paths : List String
  scenario_consistency_score : Frac
  final_status : String
deriving Repr, DecidableEq

/-- The hash/compare loop of `/validate` (routes.py lines 232-243):
hashes are stored for locked fields present in the original; a
comparison happens only when the field is present in both documents. -/
def validateLoop (od td : List (String × Json)) :
    List String → List (String × String) × List VError
  | [] => ([], [])
  | f :: rest =>
      let r := validateLoop od td rest
      match getKey? od f with
      | none => r
      | some ov =>
          let oh := compute_sha256 ov
          let errsHere :=
            match getKey? td f with
            | none => []
            | some tv =>
                if compute_sha256 tv ≠ oh then
                  [VError.fieldErr f "Locked field was modified" oh
                    (compute_sha256 tv)]
                else []
          ((f, oh) :: r.1, errsHere ++ r.2)

/-- `validate_transformation` (routes.py lines 209-263): recompute
hashes and diff without invoking generation; `request.locked_fields or
config.LOCKED_FIELDS` makes an absent or empty override fall back to the
configured list. -/
def validate_transformation (original transformed : Json)
    (overrideLocked : Option (List String)) : ValReport :=
  let locked := match overrideLocked with
    | none => LOCKED_FIELDS
    | some l => if l.isEmpty then LOCKED_FIELDS else l
  let od := containerFields original
  let td := containerFields transformed
  let r := validateLoop od td locked
  let lockedPass := r.2.isEmpty
  { locked_fields_compliance := lockedPass,
    locked_field_hashes := r.1,
    changed_paths := generate_json_diff original transformed,
    scenario_consistency_score := if lockedPass then fracOne else fracZero,
    final_status := if lockedPass then "OK" else "FAIL" }

/-! ### Sample documents used by witnesses and counterexamples -/

/-- A well-formed input document: all five locked fields, two scenario
options, the first option currently selected. -/
def docA : Json := Json.obj [("topicWizardData", Json.obj [
  ("scenarioOptions", Json.arr
    [Json.str "Restaurant scenario", Json.str "Fashion retail scenario"]),
  ("assessmentCriterion", Json.str "ac"),
  ("selectedAssessmentCriterion", Json.str "sac"),
  ("industryAlignedActivities", Json.str "iaa"),
  ("selectedIndustryAlignedActivities", Json.str "siaa"),
  ("selectedScenarioOption", Json.str "Restaurant scenario"),
  ("simulationName", Json.str "Sim")])]

/-- A structurally valid document whose only scenario option is the
empty string and whose `selectedScenarioOption` key is absent: both
resolved scenario texts come out empty. -/
def docEmptyOpt : Json := Json.obj [("topicWizardData", Json.obj [
  ("scenarioOptions", Json.arr [Json.str ""]),
  ("assessmentCriterion", Json.str "ac"),
  ("selectedAssessmentCriterion", Json.str "sac"),
  ("industryAlignedActivities", Json.str "iaa"),
  ("selectedIndustryAlignedActivities", Json.str "siaa")])]

/-- `docA` with the locked field `scenarioOptions` deleted from the
container (a transformed document from which a locked field has been
removed). -/
def docADeleted : Json := Json.obj [("topicWizardData", Json.obj [
  ("assessmentCriterion", Json.str "ac"),
  ("selectedAssessmentCriterion", Json.str "sac"),
  ("industryAlignedActivities", Json.str "iaa"),
  ("selectedIndustryAlignedActivities", Json.str "siaa"),
  ("selectedScenarioOption", Json.str "Restaurant scenario"),
  ("simulationName", Json.str "Sim")])]

/-- A service response that tampers with two locked fields and carries a
spurious extra root key. -/
def respCorrupt : List (String × Json) :=
  [("topicWizardData", Json.obj
      [("scenarioOptions", Json.str "CORRUPTED"),
       ("assessmentCriterion", Json.num 0),
       ("simulationName", Json.str "New Sim")]),
   ("extraRootKey", Json.num 1)]

/-- A workflow state about to be validated: hashes as ingested from
`docA`, but the transformed document has the locked field
`scenarioOptions` deleted. -/
def valDeletedState : WState :=
  { input_json := docA,
    selected_scenario := Sum.inl 0,
    locked_field_hashes := some (LOCKED_FIELDS.map fun f =>
      (f, compute_sha256 ((getKey? (containerFields docA) f).getD
        Json.null))),
    transformed_json := some docADeleted,
    consistency_score := some fracOne }

/-- A workflow state with a zero consistency score and exhausted
retries. -/
def retryExhaustedState : WState :=
  { input_json := Json.null,
    selected_scenario := Sum.inl 0,
    consistency_score := some fracZero,
    retry_count := some 2 }

/-- A workflow state about to enter the consistency checker with an
empty entity map. -/
def ccEmptyMapState : WState :=
  { input_json := docA,
    selected_scenario := Sum.inl 0,
    transformed_json := some docA,
    entity_map := some [],
    current_scenario_text := some "Restaurant scenario" }

/-- A workflow state ready for the transformer (all pre-generation
reads succeed). -/
def genReadyState : WState :=
  { input_json := docA,
    selected_scenario := Sum.inl 0,
    entity_map := some [],
    selected_scenario_text := some "a",
    current_scenario_text := some "b" }

/-- The document produced by the transformer's post-processing of
`respCorrupt` against `docA`: every locked field forcibly restored. -/
def docRestored : Json := Json.obj [("topicWizardData", Json.obj [
  ("scenarioOptions", Json.arr
    [Json.str "Restaurant scenario", Json.str "Fashion retail scenario"]),
  ("assessmentCriterion", Json.str "ac"),
  ("simulationName", Json.str "New Sim"),
  ("selectedAssessmentCriterion", Json.str "sac"),
  ("industryAlignedActivities", Json.str "iaa"),
  ("selectedIndustryAlignedActivities", Json.str "siaa")])]

/-! ### Association-list and restoration lemmas -/

theorem getKey?_setKey_self (fs : List (String × Json)) (k : String)
    (v : Json) : getKey? (setKey fs k v) k = some v := by
  induction fs with
  | nil => simp [setKey, getKey?]
  | cons p rest ih =>
      by_cases h : p.1 = k
      · simp [setKey, getKey?, h]
      · simp [setKey, getKey?, h, ih]

theorem getKey?_setKey_ne (fs : List (String × Json)) (k k2 : String)
    (v : Json) (h : k2 ≠ k) :
    getKey? (setKey fs k v) k2 = getKey? fs k2 := by
  induction fs with
  | nil =>
      simp only [setKey, getKey?]
      exact if_neg fun hh => h hh.symm
  | cons p rest ih =>
      by_cases hp : p.1 = k
      · have hne2 : ¬p.1 = k2 := fun hh => h (hh ▸ hp)
        simp only [setKey, if_pos hp, getKey?]
        rw [if_neg hne2, if_neg hne2]
      · simp only [setKey, if_neg hp, getKey?]
        by_cases hk2 : p.1 = k2
        · rw [if_pos hk2, if_pos hk2]
        · rw [if_neg hk2, if_neg hk2]
          exact ih

/-- The restoration fold leaves keys outside the folded list alone. -/
theorem foldl_restore_not_mem (keys : List String)
    (topic inputData : List (String × Json)) (f : String)
    (hf : f ∉ keys) :
    getKey? (keys.foldl
      (fun acc g =>
        match getKey? inputData g with
        | some v => setKey acc g v
        | none => acc) topic) f = getKey? topic f := by
  induction keys generalizing topic with
  | nil => rfl
  | cons g rest ih =>
      have hfg : f ≠ g := fun h => hf (h ▸ List.mem_cons_self g rest)
      have hfr : f ∉ rest := fun h => hf (List.mem_cons_of_mem g h)
      simp only [List.foldl_cons]
      cases hg : getKey? inputData g with
      | none => simp only [hg]; exact ih topic hfr
      | some v =>
          simp only [hg]
          rw [ih (setKey topic g v) hfr, getKey?_setKey_ne _ _ _ _ hfg]

/-- The restoration fold writes the input value of every folded key that
exists in the input container. -/
theorem foldl_restore_mem (keys : List String)
    (topic inputData : List (String × Json)) (f : String) (v : Json)
    (hf : f ∈ keys) (hv : getKey? inputData f = some v) :
    getKey? (keys.foldl
      (fun acc g =>
        match getKey? inputData g with
        | some w => setKey acc g w
        | none => acc) topic) f = some v := by
  induction keys generalizing topic with
  | nil => cases hf
  | cons g rest ih =>
      simp only [List.foldl_cons]
      by_cases hmem : f ∈ rest
      · cases hg : getKey? inputData g with
        | none => exact ih topic hmem
        | some w => exact ih (setKey topic g w) hmem
      · have hfg : f = g := by
          rcases List.mem_cons.mp hf with h | h
          · exact h
          · exact absurd h hmem
        subst hfg
        rw [hv]
        rw [foldl_restore_not_mem rest _ inputData f hmem]
        exact getKey?_setKey_self topic f v

/-- `restoreLocked` restores every locked field present in the input
container. -/
theorem restoreLocked_restores (topic inputData : List (String × Json))
    (f : String) (v : Json) (hf : f ∈ LOCKED_FIELDS)
    (hv : getKey? inputData f = some v) :
    getKey? (restoreLocked topic inputData) f = some v :=
  foldl_restore_mem LOCKED_FIELDS topic inputData f v hf hv

theorem containerFields_wrap (fs : List (String × Json)) :
    containerFields (Json.obj [("topicWizardData", Json.obj fs)]) = fs :=
  rfl

/-- Success of `transformerPost` restores every locked field present in
the input container to its original value. -/
theorem transformerPost_restores (input : Json)
    (resp : List (String × Json)) (out : Json) (f : String) (v : Json)
    (hf : f ∈ LOCKED_FIELDS)
    (hv : getKey? (containerFields input) f = some v)
    (hout : transformerPost input resp = some out) :
    getKey? (containerFields out) f = some v := by
  unfold transformerPost at hout
  cases hresp : getKey? resp "topicWizardData" with
  | none =>
      rw [hresp] at hout
      simp only [Option.some.injEq] at hout
      rw [← hout, containerFields_wrap]
      exact restoreLocked_restores resp (containerFields input) f v hf hv
  | some w =>
      cases w with
      | obj fs =>
          rw [hresp] at hout
          simp only [Option.some.injEq] at hout
          rw [← hout, containerFields_wrap]
          exact restoreLocked_restores fs (containerFields input) f v hf hv
      | null =>
          rw [hresp] at hout
          by_cases hall : (LOCKED_FIELDS.all fun g =>
              !hasKey (containerFields input) g) = true
          · have := List.all_eq_true.mp hall f hf
            rw [hasKey, hv] at this
            simp at this
          · simp only [hall] at hout
            simp at hout
      | bool b =>
          rw [hresp] at hout
          by_cases hall : (LOCKED_FIELDS.all fun g =>
              !hasKey (containerFields input) g) = true
          · have := List.all_eq_true.mp hall f hf
            rw [hasKey, hv] at this
            simp at this
          · simp only [hall] at hout
            simp at hout
      | num n =>
          rw [hresp] at hout
          by_cases hall : (LOCKED_FIELDS.all fun g =>
              !hasKey (containerFields input) g) = true
          · have := List.all_eq_true.mp hall f hf
            rw [hasKey, hv] at this
            simp at this
          · simp only [hall] at hout
            simp at hout
      | str s =>
          rw [hresp] at hout
          by_cases hall : (LOCKED_FIELDS.all fun g =>
              !hasKey (containerFields input) g) = true
          · have := List.all_eq_true.mp hall f hf
            rw [hasKey, hv] at this
            simp at this
          · simp only [hall] at hout
            simp at hout
      | arr xs =>
          rw [hresp] at hout
          by_cases hall : (LOCKED_FIELDS.all fun g =>
              !hasKey (containerFields input) g) = true
          · have := List.all_eq_true.mp hall f hf
            rw [hasKey, hv] at this
            simp at this
          · simp only [hall] at hout
            simp at hout

/-! ### Node preservation lemmas -/

theorem ingestor_node_input_json (s : WState) :
    (ingestor_node s).input_json = s.input_json := by
  unfold ingestor_node ingestFail
  repeat' first | rfl | split | dsimp only

theorem ingestor_node_transformed (s : WState) :
    (ingestor_node s).transformed_json = s.transformed_json := by
  unfold ingestor_node ingestFail
  repeat' first | rfl | split | dsimp only

theorem analyzer_node_input_json (s : WState) :
    (analyzer_node s).input_json = s.input_json := by
  unfold analyzer_node analyzerFail
  repeat' first | rfl | split | dsimp only

/-- The analyzer either keeps `transformed_json` or short-circuits it to
the (unchanged) input document. -/
theorem analyzer_node_transformed (s : WState) :
    (analyzer_node s).transformed_json = s.transformed_json ∨
    (analyzer_node s).transformed_json = some s.input_json := by
  unfold analyzer_node analyzerFail
  repeat' first | (exact Or.inl rfl) | (exact Or.inr rfl) | split | dsimp only

theorem cc_node_input_json (s : WState) :
    (consistency_checker_node s).input_json = s.input_json := by
  unfold consistency_checker_node ccFail
  repeat' first | rfl | split | dsimp only

theorem cc_node_transformed (s : WState) :
    (consistency_checker_node s).transformed_json = s.transformed_json := by
  unfold consistency_checker_node ccFail
  repeat' first | rfl | split | dsimp only

theorem retry_input_json (s : WState) :
    ((should_retry_transform s).2).input_json = s.input_json := by
  unfold should_retry_transform
  dsimp only
  split <;> rfl

theorem retry_transformed (s : WState) :
    ((should_retry_transform s).2).transformed_json = s.transformed_json := by
  unfold should_retry_transform
  dsimp only
  split <;> rfl

theorem validator_node_input_json (s : WState) :
    (validator_node s).input_json = s.input_json := by
  unfold validator_node valFail
  repeat' first | rfl | split | dsimp only

theorem validator_node_transformed (s : WState) :
    (validator_node s).transformed_json = s.transformed_json := by
  unfold validator_node valFail
  repeat' first | rfl | split | dsimp only

theorem finalizer_node_id (s : WState) : finalizer_node s = s := rfl

/-- The transformer keeps `input_json`, and its `transformed_json` is
either untouched or a successful `transformerPost` of the input. -/
theorem transformer_node_shape (gen : Nat → Option (List (String × Json)))
    (calls : Nat) (s : WState) :
    ((transformer_node gen calls s).1.input_json = s.input_json) ∧
    (((transformer_node gen calls s).1.transformed_json =
        s.transformed_json) ∨
      ∃ resp out, transformerPost s.input_json resp = some out ∧
        (transformer_node gen calls s).1.transformed_json = some out) := by
  unfold transformer_node transFail
  cases hem : s.entity_map with
  | none => exact ⟨rfl, Or.inl rfl⟩
  | some em =>
  dsimp only
  cases hsel : s.selected_scenario_text with
  | none => exact ⟨rfl, Or.inl rfl⟩
  | some a =>
  dsimp only
  cases hcur : s.current_scenario_text with
  | none => exact ⟨rfl, Or.inl rfl⟩
  | some b =>
  dsimp only
  cases hg : gen calls with
  | none => exact ⟨rfl, Or.inl rfl⟩
  | some resp =>
  dsimp only
  cases hp : transformerPost s.input_json resp with
  | none => exact ⟨rfl, Or.inl rfl⟩
  | some out => exact ⟨rfl, Or.inr ⟨resp, out, hp, rfl⟩⟩

/-- Loop invariant for locked-field invariance: if every present
`transformed_json` already agrees with the input container on the locked
fields, it still does after any number of transform/check iterations. -/
theorem transformLoop_restores (gen : Nat → Option (List (String × Json)))
    (input : Json)
    (hvalid : ∀ g ∈ LOCKED_FIELDS,
      (getKey? (containerFields input) g).isSome = true)
    (fuel calls : Nat) (s : WState)
    (hinput : s.input_json = input)
    (hP : ∀ tj, s.transformed_json = some tj → ∀ f ∈ LOCKED_FIELDS,
      getKey? (containerFields tj) f = getKey? (containerFields input) f) :
    ((transformLoop gen fuel calls s).1.input_json = input) ∧
    (∀ tj, (transformLoop gen fuel calls s).1.transformed_json = some tj →
      ∀ f ∈ LOCKED_FIELDS,
        getKey? (containerFields tj) f =
          getKey? (containerFields input) f) := by
  induction fuel generalizing calls s with
  | zero => exact ⟨hinput, hP⟩
  | succ fuel ih =>
      obtain ⟨h1in, h1tr⟩ := transformer_node_shape gen calls s
      set s1 := (transformer_node gen calls s).1 with hs1
      have h1P : ∀ tj, s1.transformed_json = some tj →
          ∀ f ∈ LOCKED_FIELDS,
            getKey? (containerFields tj) f =
              getKey? (containerFields input) f := by
        intro tj htj f hf
        rcases h1tr with heq | ⟨resp, out, hpost, hout⟩
        · exact hP tj (heq ▸ htj) f hf
        · have : out = tj := by
            rw [hout] at htj
            exact Option.some.injEq _ _ ▸ htj
          subst this
          obtain ⟨v, hv⟩ := Option.isSome_iff_exists.mp (hvalid f hf)
          rw [hinput] at hpost
          rw [transformerPost_restores input resp out f v hf hv hpost, hv]
      have h1input : s1.input_json = input := h1in.trans hinput
      have h2input :
          (consistency_checker_node s1).input_json = input := by
        rw [cc_node_input_json]; exact h1input
      have h2P : ∀ tj,
          (consistency_checker_node s1).transformed_json = some tj →
          ∀ f ∈ LOCKED_FIELDS,
            getKey? (containerFields tj) f =
              getKey? (containerFields input) f := by
        intro tj htj
        exact h1P tj (cc_node_transformed s1 ▸ htj)
      simp only [transformLoop]
      split
      · exact ih _ _
          ((retry_input_json _).trans h2input)
          (fun tj htj => h2P tj (retry_transformed _ ▸ htj))
      · exact ⟨(retry_input_json _).trans h2input,
          fun tj htj => h2P tj (retry_transformed _ ▸ htj)⟩

/-- A case analysis of the compiled workflow: either the analyzer
short-circuited (the pipeline finalizes the analyzed state with zero
generation calls) or the transform loop ran and its result was
validated. -/
theorem runPipeline_cases (gen : Nat → Option (List (String × Json)))
    (input : Json) (sel : Int ⊕ String) :
    (should_transform (analyzer_node (ingestor_node (mkInitialState input sel)))
        = "finalize" ∧
      runPipeline gen input sel =
        (analyzer_node (ingestor_node (mkInitialState input sel)), 0)) ∨
    (should_transform (analyzer_node (ingestor_node (mkInitialState input sel)))
        ≠ "finalize" ∧
      runPipeline gen input sel =
        (validator_node
          (transformLoop gen (MAX_RETRIES + 1) 0
            (analyzer_node (ingestor_node (mkInitialState input sel)))).1,
         (transformLoop gen (MAX_RETRIES + 1) 0
            (analyzer_node (ingestor_node (mkInitialState input sel)))).2)) := by
  by_cases h : should_transform
      (analyzer_node (ingestor_node (mkInitialState input sel))) = "finalize"
  · left
    refine ⟨h, ?_⟩
    unfold runPipeline
    rw [if_pos h]
    rfl
  · right
    refine ⟨h, ?_⟩
    unfold runPipeline
    rw [if_neg h]
    rfl

/-- C1, locked-field invariance: for a valid input document (every
configured locked field present in its container) and any object the
generation service returns, the transformer's shared post-processing
(`transformerPost`, the identical restoration block of
`transformer_node` and `transformer_node_streaming`) leaves every
configured locked field bound to a copy of its original input value, so
its canonical hash in the result equals its hash in the input even when
the service corrupted it; consequently any transformed document the full
workflow ends with agrees with the input on every locked field. -/
theorem C1_locked_field_invariance
    (gen : Nat → Option (List (String × Json))) (input : Json)
    (sel : Int ⊕ String) (resp : List (String × Json)) (out tj : Json)
    (f : String)
    (hvalid : ∀ g ∈ LOCKED_FIELDS,
      (getKey? (containerFields input) g).isSome = true)
    (hf : f ∈ LOCKED_FIELDS) :
    (transformerPost input resp = some out →
      getKey? (containerFields out) f = getKey? (containerFields input) f ∧
      (getKey? (containerFields out) f).map compute_sha256 =
        (getKey? (containerFields input) f).map compute_sha256) ∧
    ((runPipeline gen input sel).1.transformed_json = some tj →
      getKey? (containerFields tj) f = getKey? (containerFields input) f ∧
      (getKey? (containerFields tj) f).map compute_sha256 =
        (getKey? (containerFields input) f).map compute_sha256) := by
  constructor
  · intro hout
    obtain ⟨v, hv⟩ := Option.isSome_iff_exists.mp (hvalid f hf)
    have h1 : getKey? (containerFields out) f = some v :=
      transformerPost_restores input resp out f v hf hv hout
    exact ⟨h1.trans hv.symm, by rw [h1, hv]⟩
  · intro htj
    suffices h : getKey? (containerFields tj) f =
        getKey? (containerFields input) f by
      exact ⟨h, by rw [h]⟩
    have hin1 : (ingestor_node (mkInitialState input sel)).input_json
        = input := ingestor_node_input_json _
    have htr1 : (ingestor_node (mkInitialState input sel)).transformed_json
        = none := ingestor_node_transformed _
    set s1 := ingestor_node (mkInitialState input sel) with hs1
    have hin2 : (analyzer_node s1).input_json = input :=
      (analyzer_node_input_json s1).trans hin1
    have hP2 : ∀ u, (analyzer_node s1).transformed_json = some u →
        ∀ g ∈ LOCKED_FIELDS,
          getKey? (containerFields u) g =
            getKey? (containerFields input) g := by
      intro u hu g _
      rcases analyzer_node_transformed s1 with heq | heq
      · rw [heq, htr1] at hu
        cases hu
      · rw [heq, hin1] at hu
        cases hu
        rfl
    rcases runPipeline_cases gen input sel with ⟨_, hrp⟩ | ⟨_, hrp⟩
    · rw [hrp] at htj
      exact hP2 tj htj f hf
    · rw [hrp] at htj
      simp only [validator_node_transformed] at htj
      obtain ⟨_, hloop⟩ := transformLoop_restores gen input hvalid
        (MAX_RETRIES + 1) 0 (analyzer_node s1) hin2 hP2
      exact hloop tj htj f hf

/-- Witness for C1 at a concrete run: the service corrupts
`scenarioOptions` and `assessmentCriterion`, and the restored output
still agrees with `docA` on `scenarioOptions`. -/
theorem C1_locked_field_invariance_witness :
    getKey? (containerFields docRestored) "scenarioOptions" =
      getKey? (containerFields docA) "scenarioOptions" ∧
    (getKey? (containerFields docRestored) "scenarioOptions").map
        compute_sha256 =
      (getKey? (containerFields docA) "scenarioOptions").map
        compute_sha256 :=
  (C1_locked_field_invariance (fun _ => some respCorrupt) docA (Sum.inl 1)
    respCorrupt docRestored docRestored "scenarioOptions"
    (by decide) (by decide)).1 (by rfl)

/-- C10: whenever the transformer's post-processing succeeds, the result
is an object whose root carries exactly the single key
`topicWizardData`; root keys of the original document and any extra root
keys of the service response are dropped. -/
theorem C10_single_root_key (input : Json) (resp : List (String × Json))
    (out : Json) (hout : transformerPost input resp = some out) :
    rootKeys out = ["topicWizardData"] := by
  unfold transformerPost at hout
  cases hresp : getKey? resp "topicWizardData" with
  | none =>
      rw [hresp] at hout
      cases hout
      rfl
  | some w =>
      cases w with
      | obj fs =>
          rw [hresp] at hout
          cases hout
          rfl
      | null =>
          rw [hresp] at hout
          dsimp only at hout
          split at hout
          · cases hout; rfl
          · cases hout
      | bool b =>
          rw [hresp] at hout
          dsimp only at hout
          split at hout
          · cases hout; rfl
          · cases hout
      | num n =>
          rw [hresp] at hout
          dsimp only at hout
          split at hout
          · cases hout; rfl
          · cases hout
      | str s =>
          rw [hresp] at hout
          dsimp only at hout
          split at hout
          · cases hout; rfl
          · cases hout
      | arr xs =>
          rw [hresp] at hout
          dsimp only at hout
          split at hout
          · cases hout; rfl
          · cases hout

/-- Witness for C10: concrete post-processing of a response carrying an
extra root key. -/
theorem C10_single_root_key_witness :
    rootKeys docRestored = ["topicWizardData"] :=
  C10_single_root_key docA respCorrupt docRestored (by rfl)

/-! ### Further node lemmas (retry counter and failure shapes) -/

theorem transformer_node_retry (gen : Nat → Option (List (String × Json)))
    (calls : Nat) (s : WState) :
    (transformer_node gen calls s).1.retry_count = s.retry_count := by
  unfold transformer_node transFail
  repeat' first | rfl | split | dsimp only

theorem cc_node_retry (s : WState) :
    (consistency_checker_node s).retry_count = s.retry_count := by
  unfold consistency_checker_node ccFail
  repeat' first | rfl | split | dsimp only

theorem validator_node_retry (s : WState) :
    (validator_node s).retry_count = s.retry_count := by
  unfold validator_node valFail
  repeat' first | rfl | split | dsimp only

theorem analyzer_node_retry (s : WState) :
    (analyzer_node s).retry_count = s.retry_count := by
  unfold analyzer_node analyzerFail
  repeat' first | rfl | split | dsimp only

/-- The ingestor either fails with a single structural error entry or
succeeds with status `PENDING`; in both cases `retry_count` ends up `0`
when it started `0`. -/
theorem ingestor_node_dichotomy (s : WState) :
    (∃ msg, ingestor_node s = ingestFail s msg) ∨
    ((ingestor_node s).final_status = some "PENDING" ∧
      (ingestor_node s).retry_count = some 0) := by
  unfold ingestor_node
  repeat' first
    | exact Or.inl ⟨_, rfl⟩
    | exact Or.inr ⟨rfl, rfl⟩
    | split
    | dsimp only

/-- The retry edge preserves the bound `retry_count ≤ MAX_RETRIES`. -/
theorem retry_step_bound (s : WState)
    (h : s.retry_count.getD 0 ≤ MAX_RETRIES) :
    ((should_retry_transform s).2).retry_count.getD 0 ≤ MAX_RETRIES := by
  unfold should_retry_transform
  dsimp only
  split
  · next hc => exact hc.2
  · exact h

/-- The transform ↔ check loop preserves the retry bound. -/
theorem transformLoop_retry_bound
    (gen : Nat → Option (List (String × Json))) (fuel calls : Nat)
    (s : WState) (h : s.retry_count.getD 0 ≤ MAX_RETRIES) :
    ((transformLoop gen fuel calls s).1).retry_count.getD 0 ≤ MAX_RETRIES := by
  induction fuel generalizing calls s with
  | zero => exact h
  | succ fuel ih =>
      simp only [transformLoop]
      have h1 : ((consistency_checker_node
          (transformer_node gen calls s).1)).retry_count.getD 0
          ≤ MAX_RETRIES := by
        rw [cc_node_retry, transformer_node_retry]
        exact h
      split
      · exact ih _ _ (retry_step_bound _ h1)
      · exact retry_step_bound _ h1

/-- C2 counterexample: in `docEmptyOpt` the resolved selected text and
the current text are both empty, hence trimmed-equal, yet the analyzer
raises instead of short-circuiting: `final_status` stays `PENDING` (not
`OK`), the workflow routes analyze → transform, and a generation call
does occur (one call with a succeeding mock service). -/
theorem C2_short_circuit_counterexample :
    pyStrip ((ingestor_node (mkInitialState docEmptyOpt
        (Sum.inl 0))).current_scenario_text.getD "") =
      pyStrip ((ingestor_node (mkInitialState docEmptyOpt
        (Sum.inl 0))).selected_scenario_text.getD "") ∧
    (analyzer_node (ingestor_node (mkInitialState docEmptyOpt
        (Sum.inl 0)))).final_status ≠ some "OK" ∧
    should_transform (analyzer_node (ingestor_node (mkInitialState
        docEmptyOpt (Sum.inl 0)))) = "transform" ∧
    (runPipeline (fun _ => some []) docEmptyOpt (Sum.inl 0)).2 = 1 := by
  refine ⟨rfl, ?_, rfl, rfl⟩
  decide

/-- C2, amended: when the current and selected scenario texts are both
non-empty and their stripped forms are equal, the analyzer
short-circuits — `final_status = OK`, `transformed_json = input_json`,
`entity_map = {}` — and the workflow routes analyze → finalize; whenever
that route is taken the pipeline performs zero generation calls and
emits the analyzed state unchanged. -/
theorem C2_short_circuit_amended (s : WState) (cur sel : String)
    (hc : s.current_scenario_text = some cur)
    (hs : s.selected_scenario_text = some sel)
    (hcne : cur ≠ "") (hsne : sel ≠ "")
    (heq : pyStrip cur = pyStrip sel) :
    (analyzer_node s).final_status = some "OK" ∧
    (analyzer_node s).transformed_json = some s.input_json ∧
    (analyzer_node s).entity_map = some [] ∧
    should_transform (analyzer_node s) = "finalize" ∧
    (∀ gen input sel2,
      should_transform (analyzer_node (ingestor_node
        (mkInitialState input sel2))) = "finalize" →
      (runPipeline gen input sel2).2 = 0 ∧
      (runPipeline gen input sel2).1 =
        analyzer_node (ingestor_node (mkInitialState input sel2))) := by
  have h1 : analyzer_node s =
      { s with
        final_status := some "OK",
        transformed_json := some s.input_json,
        entity_map := some [] } := by
    unfold analyzer_node
    rw [hc, hs]
    dsimp only [Option.getD]
    rw [if_neg hcne, if_neg hsne, if_pos heq]
  refine ⟨by rw [h1], by rw [h1], by rw [h1], ?_, ?_⟩
  · unfold should_transform
    rw [h1]
    rfl
  · intro gen input sel2 hroute
    rcases runPipeline_cases gen input sel2 with ⟨_, hrp⟩ | ⟨hne, _⟩
    · rw [hrp]
      exact ⟨rfl, rfl⟩
    · exact absurd hroute hne

/-- Witness for C2 at `docA` with index 0 (the currently selected
scenario): status OK and zero generation calls. -/
theorem C2_short_circuit_witness :
    (analyzer_node (ingestor_node (mkInitialState docA
      (Sum.inl 0)))).final_status = some "OK" ∧
    (runPipeline (fun _ => none) docA (Sum.inl 0)).2 = 0 := by
  obtain ⟨h1, _, _, h4, h5⟩ := C2_short_circuit_amended
    (ingestor_node (mkInitialState docA (Sum.inl 0)))
    "Restaurant scenario" "Restaurant scenario" rfl rfl
    (by decide) (by decide) rfl
  exact ⟨h1, (h5 (fun _ => none) docA (Sum.inl 0) h4).1⟩

/-- C3, retry bound: the check_consistency stage routes back to
transform iff the score is below `CONSISTENCY_THRESHOLD` and
`retry_count` is below `MAX_RETRIES`; taking that edge increments
`retry_count` by exactly one and otherwise the state is returned
unchanged with route `validate`; the bound `retry_count ≤ MAX_RETRIES`
is preserved by every retry decision and holds of the final state of
every pipeline execution. -/
theorem C3_retry_bound :
    (∀ s : WState, (should_retry_transform s).1 = "transform" ↔
      (fracLt (s.consistency_score.getD fracZero) CONSISTENCY_THRESHOLD
          = true ∧
        s.retry_count.getD 0 < MAX_RETRIES)) ∧
    (∀ s : WState,
      ((should_retry_transform s).1 = "transform" →
        ((should_retry_transform s).2).retry_count =
          some (s.retry_count.getD 0 + 1)) ∧
      ((should_retry_transform s).1 ≠ "transform" →
        (should_retry_transform s).2 = s ∧
        (should_retry_transform s).1 = "validate")) ∧
    (∀ s : WState, s.retry_count.getD 0 ≤ MAX_RETRIES →
      ((should_retry_transform s).2).retry_count.getD 0 ≤ MAX_RETRIES) ∧
    (∀ gen input sel,
      ((runPipeline gen input sel).1).retry_count.getD 0 ≤ MAX_RETRIES) := by
  refine ⟨?_, ?_, retry_step_bound, ?_⟩
  · intro s
    unfold should_retry_transform
    dsimp only
    split
    · next hcond => simp only [true_iff]; exact hcond
    · next hcond =>
        constructor
        · intro hv; simp at hv
        · intro hc; exact absurd hc hcond
  · intro s
    unfold should_retry_transform
    dsimp only
    split
    · exact ⟨fun _ => rfl, fun hne => (hne rfl).elim⟩
    · exact ⟨fun hv => by simp at hv, fun _ => ⟨rfl, rfl⟩⟩
  · intro gen input sel
    have hrc2 : (analyzer_node (ingestor_node
        (mkInitialState input sel))).retry_count.getD 0 ≤ MAX_RETRIES := by
      rw [analyzer_node_retry]
      rcases ingestor_node_dichotomy (mkInitialState input sel) with
        ⟨msg, hm⟩ | ⟨_, hrc⟩
      · rw [hm]
        exact Nat.zero_le _
      · rw [hrc]
        exact Nat.zero_le _
    rcases runPipeline_cases gen input sel with ⟨_, hrp⟩ | ⟨_, hrp⟩
    · rw [hrp]
      exact hrc2
    · rw [hrp]
      dsimp only
      rw [validator_node_retry]
      exact transformLoop_retry_bound gen (MAX_RETRIES + 1) 0 _ hrc2

/-- Witness for C3: the bound and routing at a concrete state with
score zero and `retry_count` 2 (retries exhausted: routes to
validate). -/
theorem C3_retry_bound_witness :
    ((should_retry_transform retryExhaustedState).1 = "validate") ∧
    ((runPipeline (fun _ => none) docA
        (Sum.inl 1)).1).retry_count.getD 0 ≤ MAX_RETRIES := by
  have h := C3_retry_bound
  refine ⟨?_, h.2.2.2 (fun _ => none) docA (Sum.inl 1)⟩
  have h2 := (h.2.1 retryExhaustedState).2
  have hne : (should_retry_transform retryExhaustedState).1
      ≠ "transform" := by decide
  exact (h2 hne).2

/-- C4 counterexample: on an input whose root lacks `topicWizardData`
the workflow does end with `final_status = FAIL` and makes no generation
call, but `validation_errors` does not hold a single structural entry —
the downstream stages (analyzer, three transform attempts, validator)
each append their own failure record, leaving six entries. -/
theorem C4_structural_single_entry_counterexample :
    (runPipeline (fun _ => some []) (Json.obj [("x", Json.num 1)])
        (Sum.inl 0)).1.final_status = some "FAIL" ∧
    (runPipeline (fun _ => some []) (Json.obj [("x", Json.num 1)])
        (Sum.inl 0)).2 = 0 ∧
    ((runPipeline (fun _ => some []) (Json.obj [("x", Json.num 1)])
        (Sum.inl 0)).1.validation_errors.getD []).length = 6 ∧
    ((runPipeline (fun _ => some []) (Json.obj [("x", Json.num 1)])
        (Sum.inl 0)).1.validation_errors.getD []).length ≠ 1 := by
  refine ⟨rfl, rfl, rfl, by decide⟩

/-- C4, amended: a structural ingestion failure (missing container key,
missing locked field, empty scenario options, or unresolvable selected
scenario — exactly the cases in which `ingestor_node` reports FAIL)
leaves the pipeline with `final_status = FAIL`, zero generation calls,
and the single structural error as the *first* entry of
`validation_errors`; later stages append further failure entries, so the
list is non-empty but not a singleton. -/
theorem C4_structural_failure_amended
    (gen : Nat → Option (List (String × Json))) (input : Json)
    (sel : Int ⊕ String)
    (hfail : (ingestor_node (mkInitialState input sel)).final_status =
      some "FAIL") :
    (runPipeline gen input sel).2 = 0 ∧
    (runPipeline gen input sel).1.final_status = some "FAIL" ∧
    (∃ msg,
      ((runPipeline gen input sel).1.validation_errors.getD []).head? =
        some (VError.nodeErr "IngestorNode" msg) ∧
      ((runPipeline gen input sel).1.validation_errors.getD []).length
        = 6) := by
  rcases ingestor_node_dichotomy (mkInitialState input sel) with
    ⟨msg, hm⟩ | ⟨hpend, _⟩
  · unfold runPipeline
    rw [hm]
    exact ⟨rfl, rfl, msg, rfl, rfl⟩
  · have h := hpend.symm.trans hfail
    simp at h

/-- Witness for C4 at the concrete structurally-broken input. -/
theorem C4_structural_failure_witness :
    (runPipeline (fun _ => some []) (Json.obj [("x", Json.num 1)])
        (Sum.inl 0)).2 = 0 :=
  (C4_structural_failure_amended (fun _ => some [])
    (Json.obj [("x", Json.num 1)]) (Sum.inl 0) (by rfl)).1

/-! ### Keyword-search and score lemmas -/

mutual

theorem searchWalk_nil (ex : List String) (p : String) :
    ∀ j, searchWalk [] ex p j = []
  | Json.null => rfl
  | Json.bool _ => rfl
  | Json.num _ => rfl
  | Json.str _ => rfl
  | Json.arr xs => by
      simp only [searchWalk]
      exact searchWalkArr_nil ex p 0 xs
  | Json.obj fs => by
      simp only [searchWalk]
      exact searchWalkObj_nil ex p fs

theorem searchWalkArr_nil (ex : List String) (p : String) :
    ∀ i xs, searchWalkArr [] ex p i xs = []
  | _, [] => rfl
  | i, x :: rest => by
      simp only [searchWalkArr]
      rw [searchWalk_nil, searchWalkArr_nil]
      rfl

theorem searchWalkObj_nil (ex : List String) (p : String) :
    ∀ fs, searchWalkObj [] ex p fs = []
  | [] => rfl
  | (k, v) :: rest => by
      simp only [searchWalkObj]
      rw [searchWalkObj_nil ex p rest]
      split
      · rfl
      · rw [searchWalk_nil]
        rfl

end

/-- The keyword search over an empty keyword list finds nothing. -/
theorem search_keywords_nil (doc : Json) (ex : List String) :
    search_keywords doc [] ex = [] :=
  searchWalk_nil ex "" doc

/-- The rational value of the checker's score expression equals the
spec formula `max(0, 1 - failed / max(total, 1))`. -/
theorem fracScore_toRat_formula (f t : Nat) (ht : 1 ≤ t) :
    (fracMax0 (fracSub fracOne ⟨(f : Int), (t : Int)⟩)).toRat =
      max 0 (1 - (f : Rat) / (t : Rat)) := by
  have htQ : (0 : Rat) < (t : Rat) := by
    exact_mod_cast Nat.lt_of_lt_of_le Nat.zero_lt_one ht
  have htne : ((t : Int) : Rat) ≠ 0 := by
    push_cast
    exact ne_of_gt htQ
  unfold fracMax0 fracSub fracOne Frac.toRat
  dsimp only
  split
  · next hneg =>
      have hlt : (t : Int) < (f : Int) := by omega
      have hltQ : (t : Rat) < (f : Rat) := by exact_mod_cast hlt
      have : 1 - (f : Rat) / (t : Rat) < 0 := by
        rw [sub_neg, lt_div_iff htQ]
        simpa using hltQ
      rw [max_eq_left (le_of_lt this)]
      simp
  · next hneg =>
      have hle : (f : Int) ≤ (t : Int) := by omega
      have hleQ : (f : Rat) ≤ (t : Rat) := by exact_mod_cast hle
      have hnonneg : (0 : Rat) ≤ 1 - (f : Rat) / (t : Rat) := by
        rw [sub_nonneg, div_le_one htQ]
        exact hleQ
      rw [max_eq_right hnonneg]
      push_cast
      field_simp

/-- The checker's score expression always lies in `[0, 1]`. -/
theorem fracScore_toRat_bounds (f t : Nat) (ht : 1 ≤ t) :
    0 ≤ (fracMax0 (fracSub fracOne ⟨(f : Int), (t : Int)⟩)).toRat ∧
    (fracMax0 (fracSub fracOne ⟨(f : Int), (t : Int)⟩)).toRat ≤ 1 := by
  rw [fracScore_toRat_formula f t ht]
  have htQ : (0 : Rat) < (t : Rat) := by
    exact_mod_cast Nat.lt_of_lt_of_le Nat.zero_lt_one ht
  constructor
  · exact le_max_left 0 _
  · rw [max_le_iff]
    refine ⟨zero_le_one, ?_⟩
    have : (0 : Rat) ≤ (f : Rat) / (t : Rat) :=
      div_nonneg (by positivity) (le_of_lt htQ)
    linarith

/-- The state update performed by a successful run of the checker. -/
theorem consistency_checker_node_eq (s : WState) (tj : Json)
    (em : List (String × String)) (c : String)
    (h1 : s.transformed_json = some tj) (h2 : jsonTruthy tj = true)
    (h3 : s.entity_map = some em) (h4 : s.current_scenario_text = some c) :
    consistency_checker_node s =
      { s with consistency_score := some (fracMax0 (fracSub fracOne
        ⟨((search_keywords tj (em.map Prod.fst) LOCKED_FIELDS).length : Int),
         ((max (em.map Prod.fst).length 1 : Nat) : Int)⟩)) } := by
  unfold consistency_checker_node
  rw [h1]
  dsimp only
  rw [h2]
  rw [if_neg (by simp)]
  rw [h3]
  dsimp only
  rw [h4]

/-- C5, consistency score: on every successful run of the checker the
stored score's rational value is exactly
`max(0, 1 - findings / max(entityMapKeys, 1))` computed over
`transformed_json` with locked-field paths excluded; the score always
lies in `[0, 1]`; and an empty entity map yields exactly `1.0`.
(`search_keywords` is modelled from the spec, `helpers.py` being absent
from the source tree.) -/
theorem C5_consistency_score (s : WState) (tj : Json)
    (em : List (String × String)) (c : String)
    (h1 : s.transformed_json = some tj) (h2 : jsonTruthy tj = true)
    (h3 : s.entity_map = some em) (h4 : s.current_scenario_text = some c) :
    ((consistency_checker_node s).consistency_score).map Frac.toRat =
      some (max 0 (1 -
        ((search_keywords tj (em.map Prod.fst) LOCKED_FIELDS).length : Rat) /
        ((max em.length 1 : Nat) : Rat))) ∧
    (∀ q, (consistency_checker_node s).consistency_score = some q →
      0 ≤ q.toRat ∧ q.toRat ≤ 1) ∧
    (em = [] →
      (consistency_checker_node s).consistency_score = some fracOne) := by
  have heq := consistency_checker_node_eq s tj em c h1 h2 h3 h4
  have hlen : (em.map Prod.fst).length = em.length := List.length_map _ _
  have ht : 1 ≤ max (em.map Prod.fst).length 1 := le_max_right _ _
  refine ⟨?_, ?_, ?_⟩
  · rw [heq]
    dsimp only [Option.map]
    refine congrArg some ?_
    rw [fracScore_toRat_formula _ _ ht, hlen]
  · intro q hq
    rw [heq] at hq
    dsimp only at hq
    cases hq
    exact fracScore_toRat_bounds _ _ ht
  · intro hem
    subst hem
    rw [heq]
    dsimp only
    simp only [List.map_nil]
    rw [search_keywords_nil]
    rfl

/-- Witness for C5: an empty entity map yields score `1.0` at a
concrete state. -/
theorem C5_consistency_score_witness :
    (consistency_checker_node ccEmptyMapState).consistency_score =
      some fracOne :=
  (C5_consistency_score ccEmptyMapState docA [] "Restaurant scenario"
    rfl (by decide) rfl rfl).2.2 rfl

/-- C6 counterexample: on a valid input whose first generation attempt
fails, the attempt does make (and lose) one generation call, produces no
transformed output, and the subsequent check_consistency routing takes
the retry edge and increments `retry_count` to 1 — the generation
failure does consume a retry slot (via the forced score `0.0`), contrary
to the claim. -/
theorem C6_retry_slot_counterexample :
    (transformer_node (fun _ => none) 0 (analyzer_node (ingestor_node
        (mkInitialState docA (Sum.inl 1))))).2 = 1 ∧
    (transformer_node (fun _ => none) 0 (analyzer_node (ingestor_node
        (mkInitialState docA (Sum.inl 1))))).1.transformed_json = none ∧
    (should_retry_transform (consistency_checker_node
      (transformer_node (fun _ => none) 0 (analyzer_node (ingestor_node
        (mkInitialState docA (Sum.inl 1))))).1)).1 = "transform" ∧
    (should_retry_transform (consistency_checker_node
      (transformer_node (fun _ => none) 0 (analyzer_node (ingestor_node
        (mkInitialState docA (Sum.inl 1))))).1)).2.retry_count = some 1 := by
  exact ⟨rfl, rfl, rfl, rfl⟩

/-- C6, amended: a generation failure is fatal only for the current
attempt (the node appends a TransformerNode error and leaves the state
otherwise unchanged, keeping any earlier transformed output); the retry
routing reads nothing but `consistency_score` and `retry_count` — never
a generation error — but a failed generation leaves no fresh output, so
the checker forces score `0.0` and a retry slot *is* consumed; when
generation fails through the final attempt the pipeline terminates with
`final_status = FAIL` and a terminal ValidatorNode error. -/
theorem C6_generation_failure_amended :
    (∀ s t : WState, s.consistency_score = t.consistency_score →
      s.retry_count = t.retry_count →
      (should_retry_transform s).1 = (should_retry_transform t).1) ∧
    (∀ (gen : Nat → Option (List (String × Json))) (calls : Nat)
        (s : WState) em a b,
      s.entity_map = some em → s.selected_scenario_text = some a →
      s.current_scenario_text = some b → gen calls = none →
      transformer_node gen calls s =
        (transFail s "OpenAI generation failed", calls + 1)) ∧
    ((runPipeline (fun _ => none) docA (Sum.inl 1)).1.final_status =
        some "FAIL" ∧
     (runPipeline (fun _ => none) docA (Sum.inl 1)).2 = MAX_RETRIES + 1 ∧
     ((runPipeline (fun _ => none) docA
        (Sum.inl 1)).1.validation_errors.getD []).getLast? =
       some (VError.nodeErr "ValidatorNode"
         "No transformed JSON to validate")) := by
  refine ⟨?_, ?_, rfl, rfl, rfl⟩
  · intro s t h1 h2
    unfold should_retry_transform
    dsimp only
    rw [h1, h2]
    split <;> rfl
  · intro gen calls s em a b hem hsel hcur hgen
    unfold transformer_node
    rw [hem]
    dsimp only
    rw [hsel]
    dsimp only
    rw [hcur]
    dsimp only
    rw [hgen]

/-- Witness for C6: the generation-failure behaviour of the transformer
at a concrete state and a failing service. -/
theorem C6_generation_failure_witness :
    transformer_node (fun _ => none) 0 genReadyState =
      (transFail genReadyState "OpenAI generation failed", 1) :=
  C6_generation_failure_amended.2.1 (fun _ => none) 0 genReadyState
    [] "a" "b" rfl rfl rfl rfl

/-! ### Scenario-resolution lemmas -/

/-- Starting the resolution scan at `k` shifts every reported index by
`k`. -/
theorem resolveFrom_shift (opts : List String) (sel : String) (k : Nat) :
    resolveScenarioFrom opts sel k =
      (resolveScenarioFrom opts sel 0).map fun p => (p.1 + k, p.2) := by
  induction opts generalizing k with
  | nil => rfl
  | cons o rest ih =>
      simp only [resolveScenarioFrom]
      split
      · simp
      · rw [ih (k + 1), ih 1]
        cases resolveScenarioFrom rest sel 0 with
        | none => rfl
        | some p =>
            simp only [Option.map]
            have : p.1 + (k + 1) = p.1 + 1 + k := by omega
            rw [this]

/-- Characterization of the single-pass scan: it reports exactly the
first option (in list order) that matches exactly-or-by-substring,
case-insensitively. -/
theorem resolveScenario_some_iff (opts : List String) (sel : String)
    (i : Nat) (t : String) :
    resolveScenario opts sel = some (i, t) ↔
      (i < opts.length ∧ t = opts.getD i "" ∧
        (eqCi t sel || containsCi t sel) = true ∧
        ∀ j, j < i → (eqCi (opts.getD j "") sel ||
          containsCi (opts.getD j "") sel) = false) := by
  show resolveScenarioFrom opts sel 0 = some (i, t) ↔ _
  induction opts generalizing i t with
  | nil =>
      simp [resolveScenarioFrom]
  | cons o rest ih =>
      simp only [resolveScenarioFrom]
      by_cases h : (eqCi o sel || containsCi o sel) = true
      · rw [if_pos h]
        constructor
        · intro hs
          injection hs with hp
          have hi : i = 0 := (congrArg Prod.fst hp).symm
          have ht : t = o := (congrArg Prod.snd hp).symm
          subst hi
          subst ht
          exact ⟨Nat.succ_pos _, rfl, h, fun j hj => absurd hj (Nat.not_lt_zero j)⟩
        · rintro ⟨hi, ht, hht, hall⟩
          have hi0 : i = 0 := by
            by_contra hne
            have h0 := hall 0 (Nat.pos_of_ne_zero hne)
            rw [List.getD_cons_zero] at h0
            rw [h0] at h
            cases h
          subst hi0
          rw [List.getD_cons_zero] at ht
          subst ht
          rfl
      · rw [if_neg h]
        have hfalse : (eqCi o sel || containsCi o sel) = false :=
          Bool.not_eq_true _ ▸ Bool.of_not_eq_true h
        rw [resolveFrom_shift rest sel 1]
        constructor
        · intro hs
          cases hrest : resolveScenarioFrom rest sel 0 with
          | none => rw [hrest] at hs; cases hs
          | some p =>
              rw [hrest] at hs
              simp only [Option.map] at hs
              injection hs with hp
              have hi : p.1 + 1 = i := congrArg Prod.fst hp
              have ht : p.2 = t := congrArg Prod.snd hp
              obtain ⟨h1, h2, h3, h4⟩ := (ih p.1 p.2).mp hrest
              subst hi
              subst ht
              refine ⟨Nat.succ_lt_succ h1, ?_, h3, ?_⟩
              · rw [List.getD_cons_succ]
                exact h2
              · intro j hj
                cases j with
                | zero => rw [List.getD_cons_zero]; exact hfalse
                | succ j2 =>
                    rw [List.getD_cons_succ]
                    exact h4 j2 (Nat.lt_of_succ_lt_succ hj)
        · rintro ⟨hi, ht, hht, hall⟩
          obtain ⟨i2, rfl⟩ : ∃ i2, i = i2 + 1 := by
            cases i with
            | zero =>
                rw [List.getD_cons_zero] at ht
                subst ht
                rw [hht] at hfalse
                cases hfalse
            | succ i2 => exact ⟨i2, rfl⟩
          rw [List.getD_cons_succ] at ht
          have hrest : resolveScenarioFrom rest sel 0 = some (i2, t) := by
            refine (ih i2 t).mpr ⟨Nat.lt_of_succ_lt_succ hi, ht, hht, ?_⟩
            intro j hj
            have := hall (j + 1) (Nat.succ_lt_succ hj)
            rw [List.getD_cons_succ] at this
            exact this
          rw [hrest]
          rfl

/-- No option matches iff the scan fails (which is fatal at
ingestion). -/
theorem resolveScenario_none_iff (opts : List String) (sel : String) :
    resolveScenario opts sel = none ↔
      ∀ o ∈ opts, (eqCi o sel || containsCi o sel) = false := by
  show resolveScenarioFrom opts sel 0 = none ↔ _
  induction opts with
  | nil => simp [resolveScenarioFrom]
  | cons o rest ih =>
      simp only [resolveScenarioFrom]
      by_cases h : (eqCi o sel || containsCi o sel) = true
      · rw [if_pos h]
        simp only [List.forall_mem_cons]
        constructor
        · intro hs; cases hs
        · rintro ⟨h0, _⟩
          rw [h0] at h
          cases h
      · have hfalse : (eqCi o sel || containsCi o sel) = false :=
          Bool.not_eq_true _ ▸ Bool.of_not_eq_true h
        rw [if_neg h, resolveFrom_shift rest sel 1]
        constructor
        · intro hs
          simp only [List.forall_mem_cons]
          refine ⟨hfalse, ih.mp ?_⟩
          cases hh : resolveScenarioFrom rest sel 0 with
          | none => rfl
          | some p => rw [hh] at hs; cases hs
        · intro hall
          simp only [List.forall_mem_cons] at hall
          rw [ih.mpr hall.2]
          rfl

/-- An out-of-bounds integer `selected_scenario` is fatal at
ingestion. -/
theorem ingestor_int_oob (s : WState) (rootFs data : List (String × Json))
    (idx : Int)
    (h1 : s.input_json = Json.obj rootFs)
    (h2 : getKey? rootFs "topicWizardData" = some (Json.obj data))
    (h3 : (LOCKED_FIELDS.find? fun f => !hasKey data f) = none)
    (h4 : (optionsOf data).isEmpty = false)
    (h5 : s.selected_scenario = Sum.inl idx)
    (h6 : idx < 0 ∨ ((optionsOf data).length : Int) ≤ idx) :
    ingestor_node s = ingestFail s "Scenario not found or invalid index" := by
  unfold ingestor_node
  rw [h1]
  dsimp only
  rw [h2]
  dsimp only
  rw [h3]
  dsimp only
  rw [h4]
  rw [if_neg (by simp)]
  rw [h5]
  dsimp only
  rw [if_pos h6]

/-- A string `selected_scenario` matching no option is fatal at
ingestion. -/
theorem ingestor_string_nomatch (s : WState)
    (rootFs data : List (String × Json)) (txt : String)
    (h1 : s.input_json = Json.obj rootFs)
    (h2 : getKey? rootFs "topicWizardData" = some (Json.obj data))
    (h3 : (LOCKED_FIELDS.find? fun f => !hasKey data f) = none)
    (h4 : (optionsOf data).isEmpty = false)
    (h5 : s.selected_scenario = Sum.inr txt)
    (h6 : resolveScenario (optionsOf data) txt = none) :
    ingestor_node s = ingestFail s "Scenario not found or invalid index" := by
  unfold ingestor_node
  rw [h1]
  dsimp only
  rw [h2]
  dsimp only
  rw [h3]
  dsimp only
  rw [h4]
  rw [if_neg (by simp)]
  rw [h5]
  dsimp only
  rw [h6]

/-- C7 counterexample: with options `["ABC extra", "abc"]` and selection
`"abc"`, an exact case-insensitive match exists at index 1, yet the code
resolves to index 0 via the substring rule — the scan is a single pass
testing exact-or-substring per option, not an exact pass followed by a
substring pass as the claim states. -/
theorem C7_exact_first_counterexample :
    resolveScenario ["ABC extra", "abc"] "abc" = some (0, "ABC extra") ∧
    specResolveScenario ["ABC extra", "abc"] "abc" = some (1, "abc") ∧
    eqCi "ABC extra" "abc" = false ∧
    eqCi "abc" "abc" = true ∧
    (some ((0 : Nat), "ABC extra") ≠ some ((1 : Nat), "abc")) := by
  exact ⟨rfl, rfl, rfl, rfl, by decide⟩

/-- C7, amended: for a string `selected_scenario` the options are
scanned once in list order and the first option that either matches
exactly case-insensitively or contains the selected text
case-insensitively wins — a later exact match does not take precedence
over an earlier substring match; no option matching is fatal at
ingestion, and an integer `selected_scenario` is bounds-checked, an
out-of-bounds index being fatal at ingestion. -/
theorem C7_scenario_resolution_amended :
    (∀ opts sel i t, resolveScenario opts sel = some (i, t) ↔
      (i < opts.length ∧ t = opts.getD i "" ∧
        (eqCi t sel || containsCi t sel) = true ∧
        ∀ j, j < i → (eqCi (opts.getD j "") sel ||
          containsCi (opts.getD j "") sel) = false)) ∧
    (∀ opts sel, resolveScenario opts sel = none ↔
      ∀ o ∈ opts, (eqCi o sel || containsCi o sel) = false) ∧
    (∀ (s : WState) rootFs data idx,
      s.input_json = Json.obj rootFs →
      getKey? rootFs "topicWizardData" = some (Json.obj data) →
      (LOCKED_FIELDS.find? fun f => !hasKey data f) = none →
      (optionsOf data).isEmpty = false →
      s.selected_scenario = Sum.inl idx →
      (idx < 0 ∨ ((optionsOf data).length : Int) ≤ idx) →
      ingestor_node s =
        ingestFail s "Scenario not found or invalid index") ∧
    (∀ (s : WState) rootFs data txt,
      s.input_json = Json.obj rootFs →
      getKey? rootFs "topicWizardData" = some (Json.obj data) →
      (LOCKED_FIELDS.find? fun f => !hasKey data f) = none →
      (optionsOf data).isEmpty = false →
      s.selected_scenario = Sum.inr txt →
      resolveScenario (optionsOf data) txt = none →
      ingestor_node s =
        ingestFail s "Scenario not found or invalid index") :=
  ⟨resolveScenario_some_iff, resolveScenario_none_iff,
   ingestor_int_oob, ingestor_string_nomatch⟩

/-- Witness for C7: index 5 is out of bounds for `docA` (two options)
and ingestion fails on it. -/
theorem C7_scenario_resolution_witness :
    ingestor_node (mkInitialState docA (Sum.inl 5)) =
      ingestFail (mkInitialState docA (Sum.inl 5))
        "Scenario not found or invalid index" :=
  C7_scenario_resolution_amended.2.2.1 (mkInitialState docA (Sum.inl 5))
    [("topicWizardData", Json.obj [
      ("scenarioOptions", Json.arr
        [Json.str "Restaurant scenario", Json.str "Fashion retail scenario"]),
      ("assessmentCriterion", Json.str "ac"),
      ("selectedAssessmentCriterion", Json.str "sac"),
      ("industryAlignedActivities", Json.str "iaa"),
      ("selectedIndustryAlignedActivities", Json.str "siaa"),
      ("selectedScenarioOption", Json.str "Restaurant scenario"),
      ("simulationName", Json.str "Sim")])]
    [("scenarioOptions", Json.arr
        [Json.str "Restaurant scenario", Json.str "Fashion retail scenario"]),
     ("assessmentCriterion", Json.str "ac"),
     ("selectedAssessmentCriterion", Json.str "sac"),
     ("industryAlignedActivities", Json.str "iaa"),
     ("selectedIndustryAlignedActivities", Json.str "siaa"),
     ("selectedScenarioOption", Json.str "Restaurant scenario"),
     ("simulationName", Json.str "Sim")]
    5 rfl rfl rfl rfl rfl (by decide)

/-! ### Brand-regex soundness lemmas -/

/-- `re.search` semantics: a hit is the match at the leftmost matching
start position. -/
theorem brandSearch_sound (cs cap : List Char)
    (h : brandSearch cs = some cap) :
    ∃ i, brandMatchAt (cs.drop i) = some cap ∧
      ∀ j, j < i → brandMatchAt (cs.drop j) = none := by
  induction cs with
  | nil => cases h
  | cons c rest ih =>
      unfold brandSearch at h
      cases hm : brandMatchAt (c :: rest) with
      | some cap2 =>
          rw [hm] at h
          injection h with h2
          subst h2
          exact ⟨0, hm, fun j hj => absurd hj (Nat.not_lt_zero j)⟩
      | none =>
          rw [hm] at h
          obtain ⟨i, hi, hall⟩ := ih h
          refine ⟨i + 1, ?_, ?_⟩
          · rw [List.drop_succ_cons]
            exact hi
          · intro j hj
            cases j with
            | zero => exact hm
            | succ j2 =>
                rw [List.drop_succ_cons]
                exact hall j2 (Nat.lt_of_succ_lt_succ hj)

/-- Shape of a brand match: the capture is one capitalized letter-token
with an optional possessive marker, followed in the text by whitespace
and a trigger. -/
theorem brandMatchAt_shape (cs cap : List Char)
    (h : brandMatchAt cs = some cap) :
    ∃ c run poss, cap = (c :: run) ++ poss ∧ isUpperChar c = true ∧
      run ≠ [] ∧ run.all isAlphaChar = true ∧
      (poss = [] ∨ poss = [apos, 's']) ∧
      spacesThenTrigger (cs.drop cap.length) = true := by
  cases cs with
  | nil => cases h
  | cons c rest =>
      unfold brandMatchAt at h
      dsimp only at h
      by_cases hup : isUpperChar c = true
      · rw [if_pos hup] at h
        by_cases hemp : (rest.takeWhile isAlphaChar).isEmpty = true
        · rw [if_pos hemp] at h
          cases h
        · rw [if_neg hemp] at h
          have hrunne : rest.takeWhile isAlphaChar ≠ [] := by
            intro hh
            rw [hh] at hemp
            exact hemp rfl
          have hall : (rest.takeWhile isAlphaChar).all isAlphaChar = true := by
            rw [List.all_eq_true]
            intro x hx
            exact List.mem_takeWhile_imp hx
          have hdrop1 : (c :: rest).drop
              ((rest.takeWhile isAlphaChar).length + 1) =
              rest.drop (rest.takeWhile isAlphaChar).length := by
            rw [List.drop_succ_cons]
          cases hrem : rest.drop (rest.takeWhile isAlphaChar).length with
          | nil =>
              rw [hrem] at h
              dsimp only at h
              split at h
              · next hsp =>
                  injection h with h2
                  subst h2
                  refine ⟨c, rest.takeWhile isAlphaChar, [], by simp,
                    hup, hrunne, hall, Or.inl rfl, ?_⟩
                  have hlen : (c :: rest.takeWhile isAlphaChar).length
                      = (rest.takeWhile isAlphaChar).length + 1 := by
                    simp
                  rw [hlen, hdrop1, hrem]
                  exact hsp
              · cases h
          | cons a tail =>
              cases tail with
              | nil =>
                  rw [hrem] at h
                  dsimp only at h
                  split at h
                  · next hsp =>
                      injection h with h2
                      subst h2
                      refine ⟨c, rest.takeWhile isAlphaChar, [], by simp,
                        hup, hrunne, hall, Or.inl rfl, ?_⟩
                      have hlen : (c :: rest.takeWhile isAlphaChar).length
                          = (rest.takeWhile isAlphaChar).length + 1 := by
                        simp
                      rw [hlen, hdrop1, hrem]
                      exact hsp
                  · cases h
              | cons b rem2 =>
                  rw [hrem] at h
                  dsimp only at h
                  split at h
                  · next hcond =>
                      injection h with h2
                      subst h2
                      rw [Bool.and_eq_true, Bool.and_eq_true] at hcond
                      obtain ⟨⟨ha, hb⟩, hsp⟩ := hcond
                      have ha2 : a = apos := eq_of_beq ha
                      have hb2 : b = 's' := eq_of_beq hb
                      subst ha2
                      subst hb2
                      refine ⟨c, rest.takeWhile isAlphaChar, [apos, 's'],
                        rfl, hup, hrunne, hall, Or.inr rfl, ?_⟩
                      have hlen : ((c :: rest.takeWhile isAlphaChar) ++
                          [apos, 's']).length =
                          ((rest.takeWhile isAlphaChar).length + 2) + 1 := by
                        simp only [List.length_append, List.length_cons,
                          List.length_nil]
                        try omega
                      rw [hlen, List.drop_succ_cons]
                      have hdd : rest.drop
                          ((rest.takeWhile isAlphaChar).length + 2) =
                          rem2 := by
                        rw [← List.drop_drop, hrem]
                        rfl
                      rw [hdd]
                      exact hsp
                  · split at h
                    · next hsp =>
                        injection h with h2
                        subst h2
                        refine ⟨c, rest.takeWhile isAlphaChar, [], by simp,
                          hup, hrunne, hall, Or.inl rfl, ?_⟩
                        have hlen : (c :: rest.takeWhile isAlphaChar).length
                            = (rest.takeWhile isAlphaChar).length + 1 := by
                          simp
                        rw [hlen, hdrop1, hrem]
                        exact hsp
                    · cases h
      · rw [if_neg hup] at h
        cases h

/-- C8 counterexample: for `"Burger King is struggling"` the capitalized
token sequence immediately preceding the trigger `is` is
`"Burger King"`, but the extractor's regex captures a single token and
returns `"King"`. -/
theorem C8_brand_counterexample :
    (extract_entities_from_scenario "Burger King is struggling").brand =
      some "King" ∧
    specBrandSequence "Burger King is struggling" = some "Burger King" ∧
    (some ("King" : String) ≠ some ("Burger King" : String)) := by
  exact ⟨rfl, rfl, by decide⟩

/-- C8, amended: the brand field, when present, is the single
capitalized token (`[A-Z][a-zA-Z]+`, possibly carrying a possessive
marker) captured at the leftmost text position where that token is
immediately followed by whitespace and a trigger (`is`, `faces`, `sees`
or a possessive marker), with possessive markers stripped — only the
last token of a multi-word capitalized name is captured; when no
position matches, the field is absent (extraction is a total function
and raises no error). -/
theorem C8_brand_amended :
    (∀ text b, (extract_entities_from_scenario text).brand = some b →
      ∃ i cap, brandMatchAt (text.toList.drop i) = some cap ∧
        (∀ j, j < i → brandMatchAt (text.toList.drop j) = none) ∧
        b = String.mk (replacePossAll cap) ∧
        ∃ c run poss, cap = (c :: run) ++ poss ∧ isUpperChar c = true ∧
          run ≠ [] ∧ run.all isAlphaChar = true ∧
          (poss = [] ∨ poss = [apos, 's']) ∧
          spacesThenTrigger ((text.toList.drop i).drop cap.length)
            = true) ∧
    (∀ text, brandSearch text.toList = none →
      (extract_entities_from_scenario text).brand = none) := by
  constructor
  · intro text b hb
    unfold extract_entities_from_scenario at hb
    dsimp only at hb
    cases hs : brandSearch text.toList with
    | none => rw [hs] at hb; cases hb
    | some cap =>
        rw [hs] at hb
        simp only [Option.map] at hb
        injection hb with hb2
        obtain ⟨i, hi, hleft⟩ := brandSearch_sound _ _ hs
        obtain ⟨c, run, poss, hshape⟩ := brandMatchAt_shape _ _ hi
        exact ⟨i, cap, hi, hleft, hb2.symm, c, run, poss, hshape⟩
  · intro text hs
    unfold extract_entities_from_scenario
    dsimp only
    rw [hs]
    rfl

/-- Witness for C8: a text with no matching position yields an absent
brand field (and no error). -/
theorem C8_brand_witness :
    (extract_entities_from_scenario "no capitals here").brand = none :=
  C8_brand_amended.2 "no capitals here" (by rfl)

/-! ### Validator lemmas for deleted locked fields -/

/-- The validator's re-check loop reports no error when every folded
field that is present in the transformed container hashes to its stored
value — fields absent from the container are skipped without any
comparison. -/
theorem checkLocked_all_match (tData : List (String × Json))
    (lfh : List (String × String)) (keys : List String)
    (h : ∀ f ∈ keys, hasKey tData f = true →
      getS? lfh f =
        some (compute_sha256 ((getKey? tData f).getD Json.null))) :
    checkLocked tData lfh keys = some [] := by
  induction keys with
  | nil => rfl
  | cons f rest ih =>
      have hrest : checkLocked tData lfh rest = some [] :=
        ih fun g hg => h g (List.mem_cons_of_mem f hg)
      unfold checkLocked
      by_cases hf : hasKey tData f = true
      · rw [if_pos hf, h f (List.mem_cons_self f rest) hf]
        dsimp only
        rw [hrest]
        simp
      · rw [if_neg hf]
        exact hrest

/-- The `/validate` loop reports no error when every locked field
present in both containers hashes equally — a field deleted from the
transformed container is never compared. -/
theorem validateLoop_no_errors (od td : List (String × Json))
    (keys : List String)
    (h : ∀ f ∈ keys, hasKey od f = true → hasKey td f = true →
      compute_sha256 ((getKey? td f).getD Json.null) =
        compute_sha256 ((getKey? od f).getD Json.null)) :
    (validateLoop od td keys).2 = [] := by
  induction keys with
  | nil => rfl
  | cons f rest ih =>
      have hrest : (validateLoop od td rest).2 = [] :=
        ih fun g hg => h g (List.mem_cons_of_mem f hg)
      unfold validateLoop
      try dsimp only
      cases hod : getKey? od f with
      | none => exact hrest
      | some ov =>
          try dsimp only
          cases htd : getKey? td f with
          | none =>
              try dsimp only
              exact hrest
          | some tv =>
              have hodKey : hasKey od f = true := by
                rw [hasKey, hod]; rfl
              have htdKey : hasKey td f = true := by
                rw [hasKey, htd]; rfl
              have heq := h f (List.mem_cons_self f rest) hodKey htdKey
              rw [hod, htd] at heq
              simp only [Option.getD_some] at heq
              try dsimp only
              rw [if_neg (by simp [heq])]
              simpa using hrest

/-- C9: a configured locked field absent from the transformed
container is skipped by both re-check loops — no hash comparison, no
error entry.  Whenever every locked field *present* in the transformed
container hashes to its stored value, `validator_node` reports no
validation errors and (score permitting) `final_status = OK`, and the
standalone `/validate` operation reports
`locked_fields_compliance = true` with `final_status = OK` — so a
transformed document from which a locked field has been deleted is
reported compliant. -/
theorem C9_deleted_locked_field_compliant :
    (∀ (s : WState) lfh tj,
      s.locked_field_hashes = some lfh →
      s.transformed_json = some tj →
      jsonTruthy tj = true →
      (∀ f ∈ LOCKED_FIELDS, hasKey (containerFields tj) f = true →
        getS? lfh f = some (compute_sha256
          ((getKey? (containerFields tj) f).getD Json.null))) →
      (validator_node s).validation_errors = some [] ∧
      (fracLe CONSISTENCY_THRESHOLD (s.consistency_score.getD fracZero)
          = true →
        (validator_node s).final_status = some "OK")) ∧
    (∀ original transformed,
      (∀ f ∈ LOCKED_FIELDS,
        hasKey (containerFields original) f = true →
        hasKey (containerFields transformed) f = true →
        compute_sha256 ((getKey? (containerFields transformed) f).getD
          Json.null) =
        compute_sha256 ((getKey? (containerFields original) f).getD
          Json.null)) →
      (validate_transformation original transformed
        none).locked_fields_compliance = true ∧
      (validate_transformation original transformed none).final_status
        = "OK") := by
  constructor
  · intro s lfh tj h1 h2 h3 h4
    have hcheck := checkLocked_all_match (containerFields tj) lfh
      LOCKED_FIELDS h4
    have hval : validator_node s =
        { s with
          changed_paths := some (generate_json_diff s.input_json tj),
          validation_errors := some [],
          final_status := some
            (if (!(([] : List VError).isEmpty)) = true then "FAIL"
            else if fracLe CONSISTENCY_THRESHOLD
                (s.consistency_score.getD fracZero) = true then "OK"
            else "FAIL") } := by
      unfold validator_node
      rw [h1]
      try dsimp only
      rw [h2]
      try dsimp only
      rw [h3]
      rw [if_neg (by simp)]
      try dsimp only
      rw [hcheck]
    constructor
    · rw [hval]
    · intro hscore
      rw [hval]
      dsimp only
      rw [if_neg (by simp), if_pos hscore]
  · intro original transformed h
    have hloop := validateLoop_no_errors (containerFields original)
      (containerFields transformed) LOCKED_FIELDS h
    unfold validate_transformation
    dsimp only
    rw [hloop]
    exact ⟨rfl, rfl⟩

/-- Witness for C9: `docADeleted` is `docA` with the locked field
`scenarioOptions` deleted; the validator and the standalone `/validate`
both report it compliant and OK. -/
theorem C9_deleted_locked_field_witness :
    (validator_node valDeletedState).validation_errors = some [] ∧
    (validator_node valDeletedState).final_status = some "OK" ∧
    (validate_transformation docA docADeleted
      none).locked_fields_compliance = true ∧
    (validate_transformation docA docADeleted none).final_status
      = "OK" := by
  obtain ⟨hv, hs⟩ := C9_deleted_locked_field_compliant.1 valDeletedState
    (LOCKED_FIELDS.map fun f =>
      (f, compute_sha256 ((getKey? (containerFields docA) f).getD
        Json.null)))
    docADeleted rfl rfl (by decide) (by decide)
  obtain ⟨hc, ho⟩ := C9_deleted_locked_field_compliant.2 docA docADeleted
    (by decide)
  exact ⟨hv, hs (by decide), hc, ho⟩

end Cartedo
